import Mathlib

/-!
OpenCensus operator: admission webhook (`cmd/opencensus-operator/main.go`)

A shallow embedding of the decision and patch-generation logic of the
operator, followed by theorems about it.

Conventions of the embedding

* Go strings are `String`; functions that scan a string work on its list of
  characters. The strings that reach the operator are decoded from JSON and
  are valid UTF-8, so the characters are the runes that Go's `regexp` sees.
* A Go slice is `Slice α = Option (List α)`: `none` is the nil slice, `some l` a
  non-nil slice (`some []` is the empty, non-nil slice).
* A Go `map[string]string` that is only read is a function `String → Option String`.
* Go's `(value, error)` results are records with optional fields.
* Constants and helpers of imported packages that the file only references are
  collected in `Lib`; functions of the Go standard library are written out.
-/

namespace OpencensusOperator

/-! ## Go runtime: slices and `fmt` -/

/-- A Go slice: `none` is nil, `some l` is a non-nil slice with elements `l`. -/
abbrev Slice (α : Type) := Option (List α)

/-- Go `len(s)` / ranging over a slice: the elements, none for the nil slice. -/
def Slice.toList {α : Type} : Slice α → List α
  | none => []
  | some l => l

/-- Go `append(s, xs...)`: appending nothing to nil stays nil. -/
def Slice.append {α : Type} : Slice α → List α → Slice α
  | none, [] => none
  | none, x :: xs => some (x :: xs)
  | some l, xs => some (l ++ xs)

/-- The character of a decimal digit `d < 10`. -/
def digitChar (d : Nat) : Char := Char.ofNat (48 + d)

/-- Decimal digits of `n`, most significant first, in front of `acc`
(`fuel` bounds the number of digits). -/
def itoaAux : Nat → Nat → List Char → List Char
  | 0, _, acc => acc
  | fuel + 1, n, acc =>
    if n < 10 then digitChar n :: acc
    else itoaAux fuel (n / 10) (digitChar (n % 10) :: acc)

/-- Go `fmt.Sprintf("%d", i)` for a slice index `i`. -/
def itoa (n : Nat) : String := String.mk (itoaAux (n + 1) n [])

/-! ## Kubernetes objects (the fields the operator reads) -/

/-- The type `corev1.EnvVar`. `ValueFrom` stands for the optional `*EnvVarSource`. -/
structure EnvVar where
  Name : String
  Value : String
  ValueFrom : Option String := none
deriving DecidableEq

/-- The type `corev1.Container`: its name and its environment list, nil when unset. -/
structure Container where
  Name : String
  Env : Slice EnvVar
deriving DecidableEq

/-- The type `corev1.PodSpec`. -/
structure PodSpec where
  Containers : List Container
deriving DecidableEq

/-- The type `corev1.Pod`: promoted `ObjectMeta` fields and the spec.
`Annotations[k]` of Go is `(Annotations k).getD ""`. -/
structure Pod where
  Name : String
  GenerateName : String
  Namespace : String
  Annotations : String → Option String
  Spec : PodSpec

/-! ## Imported packages -/

/-- Keys of the label map: the five key constants of package `resourcekeys` that
`buildResourceTags` uses (pairwise distinct strings there). -/
inductive LabelKey where
  | K8SKeyClusterName
  | K8SKeyNamespaceName
  | K8SKeyPodName
  | ContainerKeyName
  | K8SKeyDeploymentName
deriving DecidableEq

/-- A Go `map[string]string` over the label keys. -/
abbrev Labels := LabelKey → Option String

/-- Go `m[k] = v`. -/
def Labels.set (m : Labels) (k : LabelKey) (v : String) : Labels :=
  fun k' => if k' = k then some v else m k'

/-- Constants and helpers of packages `resource` and `resourcekeys`
(go.opencensus.io), which the operator imports. -/
structure Lib where
  /-- The constant `resource.EnvVarType`. -/
  EnvVarType : String
  /-- The constant `resource.EnvVarLabels`. -/
  EnvVarLabels : String
  /-- The constant `resourcekeys.ContainerType`. -/
  ContainerType : String
  /-- The function `resource.EncodeLabels`. -/
  EncodeLabels : Labels → String

/-- Modelled from the spec: `names.SimpleNameGenerator.GenerateName` (package
k8s.io/apiserver/pkg/storage/names, not part of this repository's sources)
appends a short randomized suffix of fixed length to the prefix. The random
draw is the explicit argument `rnd`. -/
def GenerateName (rnd : String) (base : String) : String := base ++ rnd

/-- Go `strconv.ParseBool`: `some b` for the accepted literals, `none` for the
syntax error. -/
def ParseBool (str : String) : Option Bool :=
  if str = "1" ∨ str = "t" ∨ str = "T" ∨ str = "TRUE" ∨ str = "true" ∨ str = "True" then
    some true
  else if str = "0" ∨ str = "f" ∨ str = "F" ∨ str = "FALSE" ∨ str = "false"
      ∨ str = "False" then
    some false
  else none

/-! ## The regular expression `^(.*)-([0-9a-zA-Z]*)-([0-9a-zA-Z]*)$` -/

/-- The class `.` of Go regexps (no `s` flag): any character but a line feed. -/
def isDot (c : Char) : Bool := c != '\n'

/-- The class `[0-9a-zA-Z]`. -/
def isAlnum (c : Char) : Bool :=
  ('0' ≤ c && c ≤ '9') || ('a' ≤ c && c ≤ 'z') || ('A' ≤ c && c ≤ 'Z')

/-- A greedy `cls*` followed by the rest of the pattern `k`: the star takes
every character it can and gives characters back, one at a time, as long as
the rest fails. `acc` holds what the star has taken; `k` gets the text of the
star and the remaining input. -/
def starThen {α : Type} (cls : Char → Bool) (k : List Char → List Char → Option α) :
    List Char → List Char → Option α
  | acc, [] => k acc []
  | acc, c :: cs =>
    if cls c then
      match starThen cls k (acc ++ [c]) cs with
      | some r => some r
      | none => k acc (c :: cs)
    else k acc (c :: cs)

/-- A literal character followed by the rest of the pattern `k`. -/
def litThen {α : Type} (ch : Char) (k : List Char → Option α) : List Char → Option α
  | [] => none
  | c :: cs => if c = ch then k cs else none

/-- The anchor `$` (no `m` flag): only the end of the input. -/
def endThen {α : Type} (r : α) : List Char → Option α
  | [] => some r
  | _ :: _ => none

/-- The match of `dRegex` at the start of `s` (the pattern is anchored by `^`):
the three groups of the first match in backtracking order. -/
def dRegexMatch (s : List Char) : Option (List Char × List Char × List Char) :=
  starThen isDot (fun g1 r1 =>
    litThen '-' (fun r2 =>
      starThen isAlnum (fun g2 r3 =>
        litThen '-' (fun r4 =>
          starThen isAlnum (fun g3 r5 => endThen (g1, g2, g3) r5) [] r4) r3) [] r2) r1) [] s

/-- Go `dRegex.FindStringSubmatch(podName)`: nil (here `[]`) without a match,
otherwise the whole match and the three groups. -/
def FindStringSubmatch (podName : String) : List String :=
  match dRegexMatch podName.toList with
  | none => []
  | some (g1, g2, g3) => [podName, String.mk g1, String.mk g2, String.mk g3]

/-! ## `main.go` -/

/-- The constant `version`. -/
def version : String := "0.0.1"

/-- The variable `annotationConfigured`. -/
def annotationConfigured : String := "opencensus.io/configured/version"

/-- The variable `annotationConfigure`. -/
def annotationConfigure : String := "opencensus.io/configure"

/-- The dynamic `Value` of a patch operation: the three kinds of value that
`createPatch` stores in it. -/
inductive PatchValue where
  | str (s : String)
  | envVar (e : EnvVar)
  | envList (l : List EnvVar)
deriving DecidableEq

/-- The type `patchOperation`. -/
structure patchOperation where
  Op : String
  Path : String
  Value : PatchValue
deriving DecidableEq

/-- Source function `buildResourceTags`, up to the call of `EncodeLabels`: the map `labels`. -/
def buildLabels (cluster ns pod container dName : String) : Labels :=
  let labels : Labels := fun k =>
    match k with
    | .K8SKeyClusterName => some cluster
    | .K8SKeyNamespaceName => some ns
    | .K8SKeyPodName => some pod
    | .ContainerKeyName => some container
    | .K8SKeyDeploymentName => none
  if dName ≠ "" then labels.set .K8SKeyDeploymentName dName else labels

/-- Source function `buildResourceTags`. -/
def buildResourceTags (lib : Lib) (cluster ns pod container dName : String) : String :=
  lib.EncodeLabels (buildLabels cluster ns pod container dName)

/-- The result pair of `createPatch`: `patch` is the byte slice, nil (`none`)
or the JSON encoding of the operation slice it holds; `err` is the error. -/
structure PatchResult where
  patch : Option (Slice patchOperation)
  err : Option String
deriving DecidableEq

/-- The body of the loop over the containers in `createPatch`. -/
def containerStep (lib : Lib) (clusterName ns podName dName : String)
    (patch : Slice patchOperation) (ic : Nat × Container) : Slice patchOperation :=
  let i := ic.1
  let c := ic.2
  let path := "/spec/containers/" ++ itoa i
  let patch :=
    if c.Env = none then
      patch.append [{ Op := "add", Path := path ++ "/env", Value := .envList [] }]
    else patch
  patch.append
    [ { Op := "add", Path := path ++ "/env/-",
        Value := .envVar { Name := lib.EnvVarType, Value := lib.ContainerType } },
      { Op := "add", Path := path ++ "/env/-",
        Value := .envVar { Name := lib.EnvVarLabels,
                           Value := buildResourceTags lib clusterName ns podName c.Name dName } } ]

/-- The name that `createPatch` works with and the patch after the first
`if`: `none` when the function returns the error there. -/
def resolveName (rnd : String) (podName : String) (pod : Pod) :
    Option (String × Slice patchOperation) :=
  let patch : Slice patchOperation := none
  if podName.length = 0 then
    if pod.GenerateName.length > 0 then
      let podName := GenerateName rnd pod.GenerateName
      some (podName,
        patch.append [{ Op := "add", Path := "/metadata/name", Value := .str podName }])
    else none
  else some (podName, patch)

/-- The deployment name `dName` that `createPatch` extracts from the pod name. -/
def deploymentName (podName : String) : String :=
  let parts := FindStringSubmatch podName
  if parts.length = 4 then parts.getD 1 "" else ""

/-- Source function `createPatch`. -/
def createPatch (lib : Lib) (rnd : String) (clusterName ns podName : String)
    (pod : Pod) : PatchResult :=
  match resolveName rnd podName pod with
  | none => { patch := none, err := some "unable to configure pod without name or generate name" }
  | some (podName, patch) =>
    let dName := deploymentName podName
    let patch := pod.Spec.Containers.enum.foldl
      (containerStep lib clusterName ns podName dName) patch
    { patch := some patch, err := none }

/-- The fields of type `autoconfCmd`. -/
structure autoconfCmd where
  addr : String
  certFile : String
  keyFile : String
  clusterName : String
  configureDefault : Bool

/-- The type `admission.AdmissionRequest`, the fields that `autoconf` and `handle`
read. `Object` is the outcome of `json.Unmarshal(req.Object.Raw, &pod)`:
the decoded pod or the message of the decoding error. -/
structure AdmissionRequest where
  UID : String
  Namespace : String
  Name : String
  Object : Except String Pod

/-- The type `metav1.Status`, the field that the operator sets. -/
structure Status where
  Message : String
deriving DecidableEq

/-- The type `admission.PatchType`. -/
inductive PatchType where
  | PatchTypeJSONPatch
deriving DecidableEq

/-- The type `admission.AdmissionResponse`; unset fields have Go's zero values.
`Patch` is the byte slice: nil, or the JSON encoding of the slice it holds. -/
structure AdmissionResponse where
  UID : String := ""
  Allowed : Bool := false
  Result : Option Status := none
  Patch : Option (Slice patchOperation) := none
  PatchType : Option PatchType := none
deriving DecidableEq

/-- A line written by `log.Printf`, by its format and arguments. -/
inductive LogEntry where
  /-- The format "Invalid value %q for annotation %s on pod %s/%s, continuing with default". -/
  | invalidValue (value annotation ns name : String)
  /-- The format "configuring pod %s/%s". -/
  | configuring (ns name : String)
deriving DecidableEq

/-- The namespace that `autoconf` computes. -/
def effectiveNamespace (req : AdmissionRequest) (pod : Pod) : String :=
  if pod.Namespace ≠ "" then pod.Namespace else req.Namespace

/-- The name that `autoconf` computes. -/
def effectiveName (req : AdmissionRequest) (pod : Pod) : String :=
  if pod.Name ≠ "" then pod.Name else req.Name

/-- The variable `shouldConfigure` of `autoconf` when it is tested. -/
def shouldConfigure (cmd : autoconfCmd) (pod : Pod) : Bool :=
  match ParseBool ((pod.Annotations annotationConfigure).getD "") with
  | some b => b
  | none => cmd.configureDefault

/-- What the `else` branch of the annotation test logs. -/
def annotationLog (pod : Pod) (ns name : String) : List LogEntry :=
  match ParseBool ((pod.Annotations annotationConfigure).getD "") with
  | some _ => []
  | none =>
    [.invalidValue ((pod.Annotations annotationConfigure).getD "") annotationConfigure ns name]

/-- The end of `autoconf`: the response built from the result of `createPatch`. -/
def patchResponse (r : PatchResult) : AdmissionResponse :=
  match r.err with
  | some e => { Result := some { Message := e } }
  | none => { Allowed := true, Patch := r.patch, PatchType := some .PatchTypeJSONPatch }

/-- Source function `autoconfCmd.autoconf`: the response and the lines logged. -/
def autoconf (cmd : autoconfCmd) (lib : Lib) (rnd : String) (req : AdmissionRequest) :
    AdmissionResponse × List LogEntry :=
  match req.Object with
  | .error e => ({ Result := some { Message := e } }, [])
  | .ok pod =>
    let ns := effectiveNamespace req pod
    let name := effectiveName req pod
    let log := annotationLog pod ns name
    if !shouldConfigure cmd pod then
      ({ Allowed := true }, log)
    else
      (patchResponse (createPatch lib rnd cmd.clusterName ns name pod),
        log ++ [.configuring ns name])

/-! ## JSON Patch (RFC 6902) on the pod document

The operations of a patch are applied by the API server to the pod object
that was submitted. The pod document is read through `Pod`: the member `env`
of a container is absent (or null) when `Env` is nil and an array otherwise. -/

/-- The reference tokens of the text after the leading `/` of a JSON pointer. -/
def splitSlash : List Char → List (List Char)
  | [] => [[]]
  | c :: cs =>
    if c = '/' then [] :: splitSlash cs
    else
      match splitSlash cs with
      | [] => [[c]]
      | t :: ts => (c :: t) :: ts

/-- The reference tokens of a JSON pointer (RFC 6901); the tokens of the
pod document need no `~` escapes. -/
def parsePointer (path : String) : Option (List String) :=
  match path.toList with
  | [] => some []
  | c :: cs => if c = '/' then some ((splitSlash cs).map String.mk) else none

/-- The value of a decimal digit character. -/
def digitVal (c : Char) : Nat := c.toNat - 48

/-- The number written by a list of decimal digits, after the digits read so far. -/
def parseDigits : Nat → List Char → Option Nat
  | acc, [] => some acc
  | acc, c :: cs => if c.isDigit then parseDigits (10 * acc + digitVal c) cs else none

/-- An array index of a JSON pointer: `0`, or digits without a leading zero. -/
def parseIndex (tok : String) : Option Nat :=
  match tok.toList with
  | [] => none
  | [c] => if c.isDigit then some (digitVal c) else none
  | c :: d :: ds => if c = '0' then none else parseDigits 0 (c :: d :: ds)

/-- Replace the container at index `i`, if it exists and `f` succeeds on it. -/
def modifyContainer (f : Container → Option Container) :
    List Container → Nat → Option (List Container)
  | [], _ => none
  | c :: cs, 0 => (f c).map (fun c' => c' :: cs)
  | c :: cs, i + 1 => (modifyContainer f cs i).map (fun cs' => c :: cs')

/-- The member `env` of a container set to the array `l` (created or replaced). -/
def setEnv (l : List EnvVar) (c : Container) : Option Container :=
  some { c with Env := some l }

/-- The value `v` added at the end of the array `env` of a container; the
operation fails when the container has no such array. -/
def appendEnv (v : EnvVar) (c : Container) : Option Container :=
  match c.Env with
  | some l => some { c with Env := some (l ++ [v]) }
  | none => none

/-- One `add` operation on the pod document, for the locations of a pod that
the operator writes: the member `name` of `metadata`, the member `env` of a
container and the end `-` of the array `env` of a container.
`none` is the failure of the operation. -/
def applyAdd (pod : Pod) (op : patchOperation) : Option Pod :=
  if op.Op ≠ "add" then none
  else
    match parsePointer op.Path with
    | some [a, b] =>
      if a = "metadata" ∧ b = "name" then
        match op.Value with
        | .str s => some { pod with Name := s }
        | _ => none
      else none
    | some [a, b, i, d] =>
      if a = "spec" ∧ b = "containers" ∧ d = "env" then
        match parseIndex i, op.Value with
        | some n, .envList l =>
          (modifyContainer (setEnv l) pod.Spec.Containers n).map
            (fun cs => { pod with Spec := { Containers := cs } })
        | _, _ => none
      else none
    | some [a, b, i, d, e] =>
      if a = "spec" ∧ b = "containers" ∧ d = "env" ∧ e = "-" then
        match parseIndex i, op.Value with
        | some n, .envVar v =>
          (modifyContainer (appendEnv v) pod.Spec.Containers n).map
            (fun cs => { pod with Spec := { Containers := cs } })
        | _, _ => none
      else none
    | _ => none

/-- The operations of a patch applied one after another; `none` as soon as one fails. -/
def applyPatch : Pod → List patchOperation → Option Pod
  | pod, [] => some pod
  | pod, op :: ops =>
    match applyAdd pod op with
    | some pod' => applyPatch pod' ops
    | none => none

/-! ## Vocabulary of the theorems -/

/-- The operations that one turn of the loop of `createPatch` appends, for the
container `ic.2` at index `ic.1`. -/
def containerOps (lib : Lib) (clusterName ns podName dName : String) (ic : Nat × Container) :
    List patchOperation :=
  (if ic.2.Env = none then
    [{ Op := "add", Path := "/spec/containers/" ++ itoa ic.1 ++ "/env", Value := .envList [] }]
   else []) ++
  [ { Op := "add", Path := "/spec/containers/" ++ itoa ic.1 ++ "/env/-",
      Value := .envVar { Name := lib.EnvVarType, Value := lib.ContainerType } },
    { Op := "add", Path := "/spec/containers/" ++ itoa ic.1 ++ "/env/-",
      Value := .envVar { Name := lib.EnvVarLabels,
                         Value := buildResourceTags lib clusterName ns podName ic.2.Name dName } } ]

/-- The operation that adds the labels variable, with the encoding of the map
`labels`, at the end of the environment of the container at index `i`. -/
def labelsOp (lib : Lib) (i : Nat) (labels : Labels) : patchOperation :=
  { Op := "add", Path := "/spec/containers/" ++ itoa i ++ "/env/-",
    Value := .envVar { Name := lib.EnvVarLabels, Value := lib.EncodeLabels labels } }

/-- The container `c` with the two variables of the operator at the end of its environment. -/
def withResourceEnv (lib : Lib) (clusterName ns podName dName : String) (c : Container) :
    Container :=
  { c with Env := some (c.Env.toList ++
      [ { Name := lib.EnvVarType, Value := lib.ContainerType },
        { Name := lib.EnvVarLabels,
          Value := buildResourceTags lib clusterName ns podName c.Name dName } ]) }

/-- Every character of the string is in `[0-9a-zA-Z]`. -/
def allAlnum (s : String) : Bool := s.toList.all isAlnum

/-- No character of the string is a line feed. -/
def noLineFeed (s : String) : Bool := s.toList.all isDot

/-- A sample rendering of a label map, in a fixed order of the keys. -/
def sampleEncodeLabels (m : Labels) : String :=
  String.intercalate ","
    ([ (LabelKey.K8SKeyClusterName, "cluster"), (LabelKey.K8SKeyNamespaceName, "namespace"),
       (LabelKey.K8SKeyPodName, "pod"), (LabelKey.ContainerKeyName, "container"),
       (LabelKey.K8SKeyDeploymentName, "deployment") ].filterMap
      (fun kv => (m kv.1).map (fun v => kv.2 ++ "=" ++ v)))

/-- A sample instance of `Lib` for the worked examples. -/
def sampleLib : Lib :=
  { EnvVarType := "OC_RESOURCE_TYPE"
    EnvVarLabels := "OC_RESOURCE_LABELS"
    ContainerType := "container"
    EncodeLabels := sampleEncodeLabels }

/-- A sample pod for the worked examples: three containers, with an unset, an
empty and a non-empty environment, and the given metadata. -/
def samplePod (name generateName : String) (configure : Option String) : Pod :=
  { Name := name
    GenerateName := generateName
    Namespace := "default"
    Annotations := fun k => if k = annotationConfigure then configure else none
    Spec := { Containers :=
      [ { Name := "app", Env := none },
        { Name := "sidecar", Env := some [] },
        { Name := "proxy", Env := some [{ Name := "OC_RESOURCE_TYPE", Value := "custom" }] } ] } }

/-- A sample command for the worked examples. -/
def sampleCmd (configureDefault : Bool) : autoconfCmd :=
  { addr := ":8443", certFile := "/etc/tls/cert.pem", keyFile := "/etc/tls/key.pem"
    clusterName := "test", configureDefault := configureDefault }

/-- A sample request for the worked examples. -/
def sampleRequest (name : String) (pod : Pod) : AdmissionRequest :=
  { UID := "uid-1", Namespace := "default", Name := name, Object := .ok pod }

/-! ## `handle`, and the encoders behind `buildResourceTags` and the patch body -/

/-- The type `admission.AdmissionReview`: the request and the response, nil when unset. -/
structure AdmissionReview where
  Request : Option AdmissionRequest := none
  Response : Option AdmissionResponse := none

/-- Something that `handle` writes to the response writer. -/
inductive Written where
  /-- The call `http.Error(w, msg, code)`. -/
  | httpError (msg : String) (code : Nat)
  /-- The review encoded by `json.NewEncoder(w).Encode`. -/
  | review (r : AdmissionReview)

/-- The effect of one call of `handle`: what it wrote, and whether it ended in
the panic of a nil pointer dereference (which the HTTP server recovers from
without writing anything more). -/
structure HandleResult where
  writes : List Written
  panicked : Bool

/-- Source function `autoconfCmd.handle`. The inputs are the outcomes of the
two library calls on the request: `readErr` is the error of `ioutil.ReadAll`,
`review` is the variable `review` after `deserializer.Decode(b, nil, &review)`
and `decodeErr` is the error of that call. A nil `review.Request` makes both
`cmd.autoconf(review.Request)`, which reads `req.Object`, and
`review.Request.UID` panic. -/
def handle (cmd : autoconfCmd) (lib : Lib) (rnd : String) (readErr : Option String)
    (review : AdmissionReview) (decodeErr : Option String) : HandleResult :=
  let writes : List Written :=
    match readErr with
    | some e => [.httpError ("reading request failed: " ++ e) 400]
    | none => []
  let resp : Option AdmissionResponse :=
    match decodeErr with
    | some e => some { Result := some { Message := e } }
    | none =>
      match review.Request with
      | some req => some (autoconf cmd lib rnd req).1
      | none => none
  match resp, review.Request with
  | some resp, some req =>
    { writes := writes ++ [.review { Response := some { resp with UID := req.UID } }],
      panicked := false }
  | _, _ => { writes := writes, panicked := true }

/-- Go `json.Marshal` of a slice: `null` for the nil slice, otherwise the array
of the encodings of the elements; `enc` is the encoding of one element. -/
def jsonMarshalSlice {α : Type} (enc : α → String) : Slice α → String
  | none => "null"
  | some l => "[" ++ String.intercalate "," (l.map enc) ++ "]"

/-- The bytes of the field `Patch` of a response, nil (`none`) when unset. -/
def patchBody (enc : patchOperation → String) (resp : AdmissionResponse) : Option String :=
  resp.Patch.map (jsonMarshalSlice enc)

/-- The key order of the spec's label encoder: cluster, namespace, pod,
container, deployment. -/
def labelOrder : List LabelKey :=
  [.K8SKeyClusterName, .K8SKeyNamespaceName, .K8SKeyPodName, .ContainerKeyName,
    .K8SKeyDeploymentName]

/-- Modelled from the spec: `resource.EncodeLabels` (package
go.opencensus.io/resource, not part of this repository's sources) serializes
the labels that are present in the fixed key order cluster, namespace, pod,
container, deployment, with a stable delimiter scheme. The rendering `entry`
of one label and the delimiter `sep` are parameters. -/
def EncodeLabels (entry : LabelKey → String → String) (sep : String) (labels : Labels) :
    String :=
  String.intercalate sep (labelOrder.filterMap (fun k => (labels k).map (entry k)))

/-- A sample pod with one container and no annotation. -/
def singleContainerPod (name : String) : Pod :=
  { Name := name
    GenerateName := ""
    Namespace := "default"
    Annotations := fun _ => none
    Spec := { Containers := [{ Name := "app", Env := none }] } }

/-- A sample pod without containers. -/
def emptyPod (name : String) : Pod :=
  { Name := name
    GenerateName := ""
    Namespace := "default"
    Annotations := fun _ => none
    Spec := { Containers := [] } }

/-! ## Slices and the loop of `createPatch` -/

theorem Slice.toList_append {α : Type} (s : Slice α) (xs : List α) :
    (s.append xs).toList = s.toList ++ xs := by
  cases s with
  | none => cases xs <;> rfl
  | some l => rfl

theorem containerStep_toList (lib : Lib) (cl ns nm d : String) (p : Slice patchOperation)
    (ic : Nat × Container) :
    (containerStep lib cl ns nm d p ic).toList = p.toList ++ containerOps lib cl ns nm d ic := by
  unfold containerStep containerOps
  by_cases h : ic.2.Env = none <;> simp [h, Slice.toList_append]

theorem foldl_containerStep_toList (lib : Lib) (cl ns nm d : String) (l : List (Nat × Container))
    (p : Slice patchOperation) :
    (l.foldl (containerStep lib cl ns nm d) p).toList
      = p.toList ++ l.flatMap (containerOps lib cl ns nm d) := by
  induction l generalizing p with
  | nil => simp
  | cons ic l ih => simp [ih, containerStep_toList, List.append_assoc]

/-! ## The regular expression -/

theorem starThen_sound {α : Type} (cls : Char → Bool) (k : List Char → List Char → Option α)
    (s acc : List Char) (r : α) (h : starThen cls k acc s = some r) :
    ∃ u v, s = u ++ v ∧ (∀ c ∈ u, cls c = true) ∧ k (acc ++ u) v = some r := by
  induction s generalizing acc with
  | nil => exact ⟨[], [], rfl, by simp, by simpa [starThen] using h⟩
  | cons c cs ih =>
    unfold starThen at h
    by_cases hc : cls c = true
    · simp only [hc, if_true] at h
      cases hrec : starThen cls k (acc ++ [c]) cs with
      | some r' =>
        rw [hrec] at h
        simp only [Option.some.injEq] at h
        subst h
        obtain ⟨u, v, hs, hu, hk⟩ := ih (acc ++ [c]) hrec
        refine ⟨c :: u, v, by simp [hs], ?_, ?_⟩
        · intro x hx
          rcases List.mem_cons.1 hx with rfl | hx
          · exact hc
          · exact hu x hx
        · simpa [List.append_assoc] using hk
      | none =>
        rw [hrec] at h
        exact ⟨[], c :: cs, rfl, by simp, by simpa using h⟩
    · simp only [hc] at h
      exact ⟨[], c :: cs, rfl, by simp, by simpa using h⟩

theorem starThen_complete {α : Type} (cls : Char → Bool)
    (k : List Char → List Char → Option α) (s acc u v : List Char) (hs : s = u ++ v)
    (hu : ∀ c ∈ u, cls c = true)
    (huniq : ∀ u' v', s = u' ++ v' → (∀ c ∈ u', cls c = true) →
      k (acc ++ u') v' ≠ none → u' = u) :
    starThen cls k acc s = k (acc ++ u) v := by
  induction s generalizing acc u with
  | nil =>
    obtain ⟨hu0, hv0⟩ := List.append_eq_nil.1 hs.symm
    subst hu0 hv0
    simp [starThen]
  | cons c cs ih =>
    unfold starThen
    cases u with
    | nil =>
      simp only [List.nil_append] at hs
      subst hs
      by_cases hc : cls c = true
      · simp only [hc, if_true]
        cases hrec : starThen cls k (acc ++ [c]) cs with
        | some r' =>
          exfalso
          obtain ⟨u', v', hs', hu', hk'⟩ := starThen_sound cls k cs (acc ++ [c]) r' hrec
          have := huniq (c :: u') v' (by simp [hs']) (by
            intro x hx
            rcases List.mem_cons.1 hx with rfl | hx
            · exact hc
            · exact hu' x hx) (by simp [List.append_assoc] at hk'; simp [hk'])
          simp at this
        | none => simp
      · simp [hc]
    | cons d u1 =>
      simp only [List.cons_append, List.cons.injEq] at hs
      obtain ⟨rfl, hcs⟩ := hs
      have hc : cls c = true := hu c (by simp)
      simp only [hc, if_true]
      have := ih (acc ++ [c]) u1 hcs (fun x hx => hu x (by simp [hx])) (by
        intro u' v' hs' hu' hk'
        have := huniq (c :: u') v' (by simp [hs']) (by
          intro x hx
          rcases List.mem_cons.1 hx with rfl | hx
          · exact hc
          · exact hu' x hx) (by simpa [List.append_assoc] using hk')
        simpa using this)
      rw [this]
      simp only [List.append_assoc, List.singleton_append]
      cases hk : k (acc ++ c :: u1) v with
      | some r => rfl
      | none =>
        simp only
        by_contra hne
        have := huniq [] (c :: cs) rfl (by simp) (by simpa using hne)
        exact List.noConfusion this

theorem litThen_eq_some {α : Type} (ch : Char) (k : List Char → Option α) (s : List Char)
    (x : α) :
    litThen ch k s = some x ↔ ∃ t, s = ch :: t ∧ k t = some x := by
  cases s with
  | nil => simp [litThen]
  | cons c cs =>
    by_cases h : c = ch
    · subst h; simp [litThen]
    · simp [litThen, h]

theorem endThen_eq_some {α : Type} (r : α) (s : List Char) (x : α) :
    endThen r s = some x ↔ s = [] ∧ r = x := by
  cases s <;> simp [endThen]

theorem split_unique {α : Type} (x : α) (a a' b b' : List α) (ha : x ∉ a) (ha' : x ∉ a')
    (h : a ++ x :: b = a' ++ x :: b') : a = a' ∧ b = b' := by
  induction a generalizing a' with
  | nil =>
    cases a' with
    | nil => simpa using h
    | cons y ys =>
      simp only [List.nil_append, List.cons_append, List.cons.injEq] at h
      exact absurd (by simp [h.1]) ha'
  | cons z zs ih =>
    cases a' with
    | nil =>
      simp only [List.nil_append, List.cons_append, List.cons.injEq] at h
      exact absurd (by simp [h.1]) ha
    | cons y ys =>
      simp only [List.cons_append, List.cons.injEq] at h
      obtain ⟨rfl, h⟩ := h
      obtain ⟨h1, h2⟩ := ih ys (fun hm => ha (by simp [hm])) (fun hm => ha' (by simp [hm])) h
      exact ⟨by rw [h1], h2⟩

theorem not_isAlnum_hyphen : isAlnum '-' = false := by decide

theorem hyphen_not_mem (l : List Char) (h : ∀ c ∈ l, isAlnum c = true) : '-' ∉ l := by
  intro hm
  have := h _ hm
  rw [not_isAlnum_hyphen] at this
  exact Bool.noConfusion this

/-- The part `([0-9a-zA-Z]*)$` of the pattern. -/
theorem tail3_eq_some (g1 g2 r4 : List Char) (x : List Char × List Char × List Char) :
    starThen isAlnum (fun g3 r5 => endThen (g1, g2, g3) r5) [] r4 = some x
      ↔ x = (g1, g2, r4) ∧ ∀ c ∈ r4, isAlnum c = true := by
  constructor
  · intro h
    obtain ⟨u, v, hs, hu, hk⟩ := starThen_sound _ _ _ _ _ h
    rw [endThen_eq_some] at hk
    obtain ⟨rfl, rfl⟩ := hk
    simp only [List.append_nil] at hs
    subst hs
    exact ⟨by simp, hu⟩
  · rintro ⟨rfl, hr⟩
    rw [starThen_complete isAlnum _ r4 [] r4 [] (by simp) hr]
    · simp [endThen]
    · intro u' v' hs _ hk
      cases v' with
      | nil => simpa using hs.symm
      | cons d ds => simp [endThen] at hk

/-- The part `([0-9a-zA-Z]*)-([0-9a-zA-Z]*)$` of the pattern. -/
theorem tail2_eq_some (g1 r2 : List Char) (x : List Char × List Char × List Char) :
    starThen isAlnum (fun g2 r3 => litThen '-' (fun r4 =>
        starThen isAlnum (fun g3 r5 => endThen (g1, g2, g3) r5) [] r4) r3) [] r2 = some x
      ↔ ∃ a b, x = (g1, a, b) ∧ r2 = a ++ '-' :: b ∧ (∀ c ∈ a, isAlnum c = true)
          ∧ ∀ c ∈ b, isAlnum c = true := by
  constructor
  · intro h
    obtain ⟨u, v, hs, hu, hk⟩ := starThen_sound _ _ _ _ _ h
    rw [litThen_eq_some] at hk
    obtain ⟨t, rfl, hk⟩ := hk
    rw [tail3_eq_some] at hk
    exact ⟨u, t, by simpa using hk.1, hs, hu, hk.2⟩
  · rintro ⟨a, b, rfl, rfl, ha, hb⟩
    rw [starThen_complete isAlnum _ (a ++ '-' :: b) [] a ('-' :: b) rfl ha]
    · simp only [litThen, if_true, List.nil_append]
      exact (tail3_eq_some g1 a b _).2 ⟨rfl, hb⟩
    · intro u' v' hs hu' hk
      cases hk' : litThen '-' (fun r4 =>
        starThen isAlnum (fun g3 r5 => endThen (g1, [] ++ u', g3) r5) [] r4) v' with
      | none => exact absurd hk' hk
      | some y =>
        rw [litThen_eq_some] at hk'
        obtain ⟨t, rfl, -⟩ := hk'
        exact (split_unique '-' u' a t b (hyphen_not_mem u' hu') (hyphen_not_mem a ha) hs.symm).1

/-- The pattern as a whole: what its match is, when there is one. -/
theorem dRegexMatch_eq_some (s : List Char) (x : List Char × List Char × List Char) :
    dRegexMatch s = some x
      ↔ s = x.1 ++ '-' :: (x.2.1 ++ '-' :: x.2.2) ∧ (∀ c ∈ x.1, isDot c = true)
          ∧ (∀ c ∈ x.2.1, isAlnum c = true) ∧ ∀ c ∈ x.2.2, isAlnum c = true := by
  unfold dRegexMatch
  constructor
  · intro h
    obtain ⟨u, v, hs, hu, hk⟩ := starThen_sound _ _ _ _ _ h
    rw [litThen_eq_some] at hk
    obtain ⟨t, rfl, hk⟩ := hk
    rw [tail2_eq_some] at hk
    obtain ⟨a, b, rfl, rfl, ha, hb⟩ := hk
    exact ⟨by simpa using hs, by simpa using hu, ha, hb⟩
  · obtain ⟨p, a, b⟩ := x
    rintro ⟨rfl, hp, ha, hb⟩
    simp only at hp ha hb
    rw [starThen_complete isDot _ _ [] p ('-' :: (a ++ '-' :: b)) rfl hp]
    · simp only [litThen, if_true, List.nil_append]
      exact (tail2_eq_some p _ _).2 ⟨a, b, rfl, rfl, ha, hb⟩
    · intro u' v' hs hu' hk
      cases hk' : litThen '-' (fun r2 =>
          starThen isAlnum (fun g2 r3 => litThen '-' (fun r4 =>
            starThen isAlnum (fun g3 r5 => endThen ([] ++ u', g2, g3) r5) [] r4) r3) [] r2) v' with
      | none => exact absurd hk' hk
      | some y =>
        rw [litThen_eq_some] at hk'
        obtain ⟨t, rfl, hk'⟩ := hk'
        rw [tail2_eq_some] at hk'
        obtain ⟨a', b', -, rfl, ha', hb'⟩ := hk'
        have hrev : b.reverse ++ '-' :: (a.reverse ++ '-' :: p.reverse)
            = b'.reverse ++ '-' :: (a'.reverse ++ '-' :: u'.reverse) := by
          have := congrArg List.reverse hs
          simpa [List.reverse_append, List.append_assoc] using this
        have hb_ : '-' ∉ b.reverse := by simpa using hyphen_not_mem b hb
        have hb'_ : '-' ∉ b'.reverse := by simpa using hyphen_not_mem b' hb'
        have ha_ : '-' ∉ a.reverse := by simpa using hyphen_not_mem a ha
        have ha'_ : '-' ∉ a'.reverse := by simpa using hyphen_not_mem a' ha'
        obtain ⟨-, h2⟩ := split_unique '-' _ _ _ _ hb_ hb'_ hrev
        obtain ⟨-, h3⟩ := split_unique '-' _ _ _ _ ha_ ha'_ h2
        exact (List.reverse_injective h3).symm

/-! ## Indices, pointers and the `add` operation -/

theorem digitChar_isDigit (d : Nat) (h : d < 10) : (digitChar d).isDigit = true := by
  interval_cases d <;> decide

theorem digitVal_digitChar (d : Nat) (h : d < 10) : digitVal (digitChar d) = d := by
  interval_cases d <;> decide

theorem digitChar_ne_zero (d : Nat) (h : d < 10) (h0 : 0 < d) : digitChar d ≠ '0' := by
  interval_cases d <;> decide

theorem isDigit_ne_slash (c : Char) (h : c.isDigit = true) : c ≠ '/' := by
  rintro rfl
  exact absurd h (by decide)

theorem itoaAux_acc (fuel n : Nat) (acc : List Char) :
    itoaAux fuel n acc = itoaAux fuel n [] ++ acc := by
  induction fuel generalizing n acc with
  | zero => simp [itoaAux]
  | succ f ih =>
    unfold itoaAux
    by_cases h : n < 10
    · simp [h]
    · simp only [h, if_false]
      rw [ih (n / 10) (digitChar (n % 10) :: acc), ih (n / 10) [digitChar (n % 10)]]
      simp

theorem parseDigits_snoc (l : List Char) (acc : Nat) (c : Char) :
    parseDigits acc (l ++ [c])
      = (parseDigits acc l).bind
          (fun a => if c.isDigit then some (10 * a + digitVal c) else none) := by
  induction l generalizing acc with
  | nil => by_cases h : c.isDigit = true <;> simp [parseDigits, h]
  | cons d ds ih =>
    by_cases h : d.isDigit = true
    · simp [parseDigits, h, ih]
    · simp [parseDigits, h]

theorem itoaAux_spec (fuel n : Nat) (h : n < fuel) :
    parseDigits 0 (itoaAux fuel n []) = some n
      ∧ (∀ c ∈ itoaAux fuel n [], c.isDigit = true)
      ∧ (∃ c cs, itoaAux fuel n [] = c :: cs ∧ (0 < n → c ≠ '0')) := by
  induction fuel generalizing n with
  | zero => omega
  | succ f ih =>
    unfold itoaAux
    by_cases hn : n < 10
    · simp only [hn, if_true]
      refine ⟨?_, ?_, _, _, rfl, digitChar_ne_zero n hn⟩
      · simp [parseDigits, digitChar_isDigit n hn, digitVal_digitChar n hn]
      · simp [digitChar_isDigit n hn]
    · simp only [hn, if_false]
      have hlt : n / 10 < f := by omega
      have hpos : 0 < n / 10 := by omega
      have hm : n % 10 < 10 := Nat.mod_lt _ (by decide)
      obtain ⟨h1, h2, c, cs, h3, h4⟩ := ih (n / 10) hlt
      rw [itoaAux_acc]
      refine ⟨?_, ?_, c, cs ++ [digitChar (n % 10)], by simp [h3], fun _ => h4 hpos⟩
      · rw [parseDigits_snoc, h1]
        simp only [Option.some_bind, digitChar_isDigit _ hm, if_true, digitVal_digitChar _ hm]
        congr 1
        omega
      · intro x hx
        rcases List.mem_append.1 hx with hx | hx
        · exact h2 x hx
        · simp only [List.mem_singleton] at hx
          subst hx
          exact digitChar_isDigit _ hm

theorem parseIndex_itoa (n : Nat) : parseIndex (itoa n) = some n := by
  obtain ⟨h1, h2, c, cs, h3, h4⟩ := itoaAux_spec (n + 1) n (Nat.lt_succ_self n)
  unfold parseIndex itoa
  simp only [String.toList]
  rw [h3] at h1 h2
  rw [h3]
  cases cs with
  | nil =>
    have hc : c.isDigit = true := h2 c (by simp)
    simp only [parseDigits, hc, if_true] at h1
    simpa [hc] using h1
  | cons d ds =>
    have hn : 0 < n := by
      rcases Nat.eq_zero_or_pos n with h0 | h0
      · subst h0
        simp [itoaAux] at h3
      · exact h0
    simp only [h4 hn, if_false]
    exact h1

theorem itoa_no_slash (n : Nat) : ∀ c ∈ (itoa n).toList, c ≠ '/' := by
  intro c hc
  exact isDigit_ne_slash c ((itoaAux_spec (n + 1) n (Nat.lt_succ_self n)).2.1 c hc)

theorem splitSlash_append (l rest : List Char) (h : ∀ c ∈ l, c ≠ '/') :
    splitSlash (l ++ '/' :: rest) = l :: splitSlash rest := by
  induction l with
  | nil => simp [splitSlash]
  | cons c cs ih =>
    have hc : c ≠ '/' := h c (by simp)
    have := ih (fun x hx => h x (by simp [hx]))
    simp [splitSlash, hc, this]

theorem splitSlash_last (l : List Char) (h : ∀ c ∈ l, c ≠ '/') : splitSlash l = [l] := by
  induction l with
  | nil => simp [splitSlash]
  | cons c cs ih =>
    have hc : c ≠ '/' := h c (by simp)
    have := ih (fun x hx => h x (by simp [hx]))
    simp [splitSlash, hc, this]

theorem parsePointer_env (i : Nat) :
    parsePointer ("/spec/containers/" ++ itoa i ++ "/env")
      = some ["spec", "containers", itoa i, "env"] := by
  unfold parsePointer
  have e : ("/spec/containers/" ++ itoa i ++ "/env").toList
      = '/' :: ("spec".toList ++ '/' :: ("containers".toList ++ '/' ::
          ((itoa i).toList ++ '/' :: "env".toList))) := by
    simp [String.toList]
  rw [e]
  simp only [if_true]
  rw [splitSlash_append _ _ (by decide), splitSlash_append _ _ (by decide),
    splitSlash_append _ _ (itoa_no_slash i), splitSlash_last _ (by decide)]
  rfl

theorem parsePointer_env_end (i : Nat) :
    parsePointer ("/spec/containers/" ++ itoa i ++ "/env/-")
      = some ["spec", "containers", itoa i, "env", "-"] := by
  unfold parsePointer
  have e : ("/spec/containers/" ++ itoa i ++ "/env/-").toList
      = '/' :: ("spec".toList ++ '/' :: ("containers".toList ++ '/' ::
          ((itoa i).toList ++ '/' :: ("env".toList ++ '/' :: "-".toList)))) := by
    simp [String.toList]
  rw [e]
  simp only [if_true]
  rw [splitSlash_append _ _ (by decide), splitSlash_append _ _ (by decide),
    splitSlash_append _ _ (itoa_no_slash i), splitSlash_append _ _ (by decide),
    splitSlash_last _ (by decide)]
  rfl

theorem parsePointer_name : parsePointer "/metadata/name" = some ["metadata", "name"] := by
  decide

theorem applyAdd_name (pod : Pod) (s : String) :
    applyAdd pod { Op := "add", Path := "/metadata/name", Value := .str s }
      = some { pod with Name := s } := by
  simp [applyAdd, parsePointer_name]

theorem applyAdd_env (pod : Pod) (i : Nat) (l : List EnvVar) :
    applyAdd pod
        { Op := "add", Path := "/spec/containers/" ++ itoa i ++ "/env", Value := .envList l }
      = (modifyContainer (setEnv l) pod.Spec.Containers i).map
          (fun cs => { pod with Spec := { Containers := cs } }) := by
  simp [applyAdd, parsePointer_env, parseIndex_itoa]

theorem applyAdd_env_end (pod : Pod) (i : Nat) (v : EnvVar) :
    applyAdd pod
        { Op := "add", Path := "/spec/containers/" ++ itoa i ++ "/env/-", Value := .envVar v }
      = (modifyContainer (appendEnv v) pod.Spec.Containers i).map
          (fun cs => { pod with Spec := { Containers := cs } }) := by
  simp [applyAdd, parsePointer_env_end, parseIndex_itoa]

theorem modifyContainer_append (f : Container → Option Container) (pre post : List Container)
    (c : Container) :
    modifyContainer f (pre ++ c :: post) pre.length = (f c).map (fun c' => pre ++ c' :: post) := by
  induction pre with
  | nil => simp [modifyContainer]
  | cons d ds ih =>
    show Option.map (fun cs' => d :: cs') (modifyContainer f (ds ++ c :: post) ds.length) = _
    rw [ih]
    cases f c <;> rfl

theorem applyPatch_append (pod : Pod) (a b : List patchOperation) :
    applyPatch pod (a ++ b) = (applyPatch pod a).bind (fun pod' => applyPatch pod' b) := by
  induction a generalizing pod with
  | nil => simp [applyPatch]
  | cons op ops ih =>
    simp only [List.cons_append, applyPatch]
    cases applyAdd pod op with
    | none => simp
    | some pod' => simpa using ih pod'

theorem applyPatch_containerOps (lib : Lib) (cl ns nm d : String) (pod : Pod)
    (pre post : List Container) (c : Container) (h : pod.Spec.Containers = pre ++ c :: post) :
    applyPatch pod (containerOps lib cl ns nm d (pre.length, c))
      = some { pod with
          Spec := { Containers := pre ++ withResourceEnv lib cl ns nm d c :: post } } := by
  obtain ⟨name, env⟩ := c
  cases env with
  | none =>
    simp [containerOps, applyPatch, applyAdd_env, applyAdd_env_end, h, modifyContainer_append,
      withResourceEnv, Slice.toList, setEnv, appendEnv]
  | some l =>
    simp [containerOps, applyPatch, applyAdd_env_end, h, modifyContainer_append,
      withResourceEnv, Slice.toList, setEnv, appendEnv]

theorem applyPatch_containers (lib : Lib) (cl ns nm d : String) (post pre : List Container)
    (pod : Pod) (h : pod.Spec.Containers = pre ++ post) :
    applyPatch pod ((post.enumFrom pre.length).flatMap (containerOps lib cl ns nm d))
      = some { pod with
          Spec := { Containers := pre ++ post.map (withResourceEnv lib cl ns nm d) } } := by
  induction post generalizing pre pod with
  | nil =>
    obtain ⟨n, g, s, a, ⟨cs⟩⟩ := pod
    simp at h
    simp [applyPatch, h]
  | cons c post ih =>
    simp only [List.enumFrom_cons, List.flatMap_cons, applyPatch_append,
      applyPatch_containerOps lib cl ns nm d pod pre post c h, Option.some_bind]
    have := ih (pre ++ [withResourceEnv lib cl ns nm d c])
      { pod with Spec := { Containers := pre ++ withResourceEnv lib cl ns nm d c :: post } }
      (by simp)
    simp only [List.length_append, List.length_singleton] at this
    rw [this]
    simp

/-! ## `createPatch` and `autoconf`, case by case -/

theorem length_eq_zero_iff (s : String) : s.length = 0 ↔ s = "" := by
  obtain ⟨l⟩ := s
  cases l with
  | nil => exact ⟨fun _ => rfl, fun _ => rfl⟩
  | cons c cs =>
    constructor
    · intro h
      simp [String.length] at h
    · intro h
      exact absurd (congrArg String.data h) (by simp)

theorem resolveName_given (rnd podName : String) (pod : Pod) (h : podName ≠ "") :
    resolveName rnd podName pod = some (podName, none) := by
  have : ¬ podName.length = 0 := fun h0 => h ((length_eq_zero_iff _).1 h0)
  simp [resolveName, this]

theorem resolveName_generated (rnd : String) (pod : Pod) (h : pod.GenerateName ≠ "") :
    resolveName rnd "" pod
      = some (GenerateName rnd pod.GenerateName,
          some [{ Op := "add", Path := "/metadata/name",
                  Value := .str (GenerateName rnd pod.GenerateName) }]) := by
  have : 0 < pod.GenerateName.length :=
    Nat.pos_of_ne_zero (fun h0 => h ((length_eq_zero_iff _).1 h0))
  simp [resolveName, this, Slice.append]

theorem resolveName_eq_none_iff (rnd podName : String) (pod : Pod) :
    resolveName rnd podName pod = none ↔ podName = "" ∧ pod.GenerateName = "" := by
  by_cases h : podName = ""
  · subst h
    by_cases hg : pod.GenerateName = ""
    · simp [resolveName, hg]
    · simp [resolveName_generated rnd pod hg, hg]
  · simp [resolveName_given rnd podName pod h, h]

theorem createPatch_of_resolved (lib : Lib) (rnd cl ns podName : String) (pod : Pod)
    (name : String) (p0 : Slice patchOperation)
    (h : resolveName rnd podName pod = some (name, p0)) :
    createPatch lib rnd cl ns podName pod
      = { patch := some (pod.Spec.Containers.enum.foldl
            (containerStep lib cl ns name (deploymentName name)) p0),
          err := none } := by
  simp [createPatch, h]

theorem createPatch_of_unresolved (lib : Lib) (rnd cl ns podName : String) (pod : Pod)
    (h : resolveName rnd podName pod = none) :
    createPatch lib rnd cl ns podName pod
      = { patch := none, err := some "unable to configure pod without name or generate name" } := by
  simp [createPatch, h]

theorem autoconf_skip (cmd : autoconfCmd) (lib : Lib) (rnd : String) (req : AdmissionRequest)
    (pod : Pod) (hobj : req.Object = .ok pod) (h : shouldConfigure cmd pod = false) :
    (autoconf cmd lib rnd req).1 = { Allowed := true } := by
  simp [autoconf, hobj, h]

theorem autoconf_configure (cmd : autoconfCmd) (lib : Lib) (rnd : String) (req : AdmissionRequest)
    (pod : Pod) (hobj : req.Object = .ok pod) (h : shouldConfigure cmd pod = true) :
    (autoconf cmd lib rnd req).1
      = patchResponse (createPatch lib rnd cmd.clusterName (effectiveNamespace req pod)
          (effectiveName req pod) pod) := by
  simp [autoconf, hobj, h]

/-! ## The deployment name -/

theorem deploymentName_of_match (name : String) (p a b : List Char)
    (h : dRegexMatch name.toList = some (p, a, b)) : deploymentName name = String.mk p := by
  unfold deploymentName FindStringSubmatch
  rw [h]
  rfl

theorem deploymentName_of_no_match (name : String) (h : dRegexMatch name.toList = none) :
    deploymentName name = "" := by
  unfold deploymentName FindStringSubmatch
  rw [h]
  rfl

theorem toList_segments (p a b : String) :
    (p ++ "-" ++ a ++ "-" ++ b).toList = p.toList ++ '-' :: (a.toList ++ '-' :: b.toList) := by
  simp [String.toList]

theorem segments_ne_empty (p a b : String) : p ++ "-" ++ a ++ "-" ++ b ≠ "" := by
  intro h
  have := congrArg String.toList h
  rw [toList_segments] at this
  simp [String.toList] at this

theorem deploymentName_segments (p a b : String) (hp : noLineFeed p = true)
    (ha : allAlnum a = true) (hb : allAlnum b = true) :
    deploymentName (p ++ "-" ++ a ++ "-" ++ b) = p := by
  have h : dRegexMatch (p ++ "-" ++ a ++ "-" ++ b).toList
      = some (p.toList, a.toList, b.toList) := by
    rw [dRegexMatch_eq_some, toList_segments]
    exact ⟨rfl, by simpa [noLineFeed] using hp, by simpa [allAlnum] using ha,
      by simpa [allAlnum] using hb⟩
  rw [deploymentName_of_match _ _ _ _ h]
  rfl

theorem deploymentName_no_segments (name : String)
    (h : ¬ ∃ p a b : String, name = p ++ "-" ++ a ++ "-" ++ b ∧ allAlnum a = true
      ∧ allAlnum b = true) :
    deploymentName name = "" := by
  cases hm : dRegexMatch name.toList with
  | none => exact deploymentName_of_no_match name hm
  | some x =>
    exfalso
    obtain ⟨p, a, b⟩ := x
    rw [dRegexMatch_eq_some] at hm
    obtain ⟨hs, -, ha, hb⟩ := hm
    refine h ⟨String.mk p, String.mk a, String.mk b, ?_, ?_, ?_⟩
    · apply String.ext
      show name.toList = (String.mk p ++ "-" ++ String.mk a ++ "-" ++ String.mk b).toList
      rw [toList_segments]
      exact hs
    · simpa [allAlnum, String.toList] using ha
    · simpa [allAlnum, String.toList] using hb

theorem no_segments_of_count (name : String) (h : name.toList.count '-' < 2) :
    ¬ ∃ p a b : String, name = p ++ "-" ++ a ++ "-" ++ b ∧ allAlnum a = true
      ∧ allAlnum b = true := by
  rintro ⟨p, a, b, rfl, -, -⟩
  rw [toList_segments] at h
  simp [List.count_append, List.count_cons] at h
  omega

theorem buildLabels_deployment (cl ns nm c d : String) :
    buildLabels cl ns nm c d .K8SKeyDeploymentName = if d = "" then none else some d := by
  by_cases h : d = "" <;> simp [buildLabels, Labels.set, h]

theorem buildLabels_isSome (cl ns nm c : String) (k : LabelKey) :
    (buildLabels cl ns nm c "" k).isSome = true ↔ k ≠ .K8SKeyDeploymentName := by
  cases k <;> simp [buildLabels]

theorem buildLabels_pod (cl ns nm c d : String) :
    buildLabels cl ns nm c d .K8SKeyPodName = some nm := by
  by_cases h : d = "" <;> simp [buildLabels, Labels.set, h]

/-! ## The operations of a patch -/

theorem labels_op_mem (lib : Lib) (cl ns nm d : String) (l : List Container) (k i : Nat)
    (c : Container) (h : l[i]? = some c) :
    labelsOp lib (k + i) (buildLabels cl ns nm c.Name d)
      ∈ (l.enumFrom k).flatMap (containerOps lib cl ns nm d) := by
  induction l generalizing k i with
  | nil => simp at h
  | cons x xs ih =>
    simp only [List.enumFrom_cons, List.flatMap_cons, List.mem_append]
    cases i with
    | zero =>
      simp only [List.getElem?_cons_zero, Option.some.injEq] at h
      subst h
      left
      simp [containerOps, buildResourceTags, labelsOp]
    | succ j =>
      right
      have := ih (k + 1) j (by simpa using h)
      rw [show k + 1 + j = k + (j + 1) by omega] at this
      exact this

theorem labels_op_mem_enum (lib : Lib) (cl ns nm d : String) (l : List Container) (i : Nat)
    (c : Container) (h : l[i]? = some c) :
    labelsOp lib i (buildLabels cl ns nm c.Name d)
      ∈ l.enum.flatMap (containerOps lib cl ns nm d) := by
  have := labels_op_mem lib cl ns nm d l 0 i c h
  simpa [List.enum] using this

theorem createPatch_given (lib : Lib) (rnd cl ns podName : String) (pod : Pod)
    (h : podName ≠ "") :
    ∃ ops, createPatch lib rnd cl ns podName pod = { patch := some ops, err := none } ∧
      ops.toList
        = pod.Spec.Containers.enum.flatMap
            (containerOps lib cl ns podName (deploymentName podName)) := by
  refine ⟨_, createPatch_of_resolved lib rnd cl ns podName pod podName none
    (resolveName_given rnd podName pod h), ?_⟩
  rw [foldl_containerStep_toList]
  rfl

theorem createPatch_generated (lib : Lib) (rnd cl ns : String) (pod : Pod)
    (h : pod.GenerateName ≠ "") :
    ∃ ops, createPatch lib rnd cl ns "" pod = { patch := some ops, err := none } ∧
      ops.toList
        = { Op := "add", Path := "/metadata/name",
            Value := .str (GenerateName rnd pod.GenerateName) } ::
          pod.Spec.Containers.enum.flatMap
            (containerOps lib cl ns (GenerateName rnd pod.GenerateName)
              (deploymentName (GenerateName rnd pod.GenerateName))) := by
  refine ⟨_, createPatch_of_resolved lib rnd cl ns "" pod _ _
    (resolveName_generated rnd pod h), ?_⟩
  rw [foldl_containerStep_toList]
  rfl

theorem containerOps_path_ne (lib : Lib) (cl ns nm d : String) (ic : Nat × Container)
    (op : patchOperation) (h : op ∈ containerOps lib cl ns nm d ic) :
    op.Path ≠ "/metadata/name" := by
  have key : ∀ t : String, "/spec/containers/" ++ itoa ic.1 ++ t ≠ "/metadata/name" := by
    intro t ht
    have := congrArg (fun s : String => s.toList.get? 1) ht
    simp [String.toList] at this
  unfold containerOps at h
  by_cases he : ic.2.Env = none
  · simp only [he, if_true, List.singleton_append, List.mem_cons, List.mem_singleton,
      List.not_mem_nil, or_false] at h
    rcases h with h | h | h <;> subst h <;> exact key _
  · simp only [he, if_false, List.nil_append, List.mem_cons, List.mem_singleton,
      List.not_mem_nil, or_false] at h
    rcases h with h | h <;> subst h <;> exact key _

theorem applyPatch_take (pod pod' : Pod) (l : List patchOperation)
    (h : applyPatch pod l = some pod') (k : Nat) :
    (applyPatch pod (l.take k)).isSome = true := by
  rw [← List.take_append_drop k l, applyPatch_append] at h
  cases hk : applyPatch pod (l.take k) with
  | none => simp [hk] at h
  | some _ => rfl

theorem applyPatch_resolved (lib : Lib) (rnd cl ns podName : String) (pod : Pod)
    (name : String) (p0 : Slice patchOperation)
    (h : resolveName rnd podName pod = some (name, p0)) :
    ∃ pod', applyPatch pod
        (p0.toList ++ pod.Spec.Containers.enum.flatMap
          (containerOps lib cl ns name (deploymentName name))) = some pod' ∧
      pod'.Spec.Containers
        = pod.Spec.Containers.map (withResourceEnv lib cl ns name (deploymentName name)) := by
  rw [applyPatch_append]
  by_cases hn : podName = ""
  · subst hn
    have hg : pod.GenerateName ≠ "" := fun hg =>
      absurd ((resolveName_eq_none_iff rnd "" pod).2 ⟨rfl, hg⟩) (by simp [h])
    rw [resolveName_generated rnd pod hg] at h
    simp only [Option.some.injEq, Prod.mk.injEq] at h
    obtain ⟨rfl, rfl⟩ := h
    have := applyPatch_containers lib cl ns (GenerateName rnd pod.GenerateName)
      (deploymentName (GenerateName rnd pod.GenerateName)) pod.Spec.Containers []
      { pod with Name := GenerateName rnd pod.GenerateName } (by simp)
    simp only [List.length_nil, List.nil_append] at this
    simp only [Slice.toList, applyPatch, applyAdd_name, Option.some_bind]
    exact ⟨_, this, rfl⟩
  · rw [resolveName_given rnd podName pod hn] at h
    simp only [Option.some.injEq, Prod.mk.injEq] at h
    obtain ⟨rfl, rfl⟩ := h
    have := applyPatch_containers lib cl ns podName (deploymentName podName)
      pod.Spec.Containers [] pod (by simp)
    simp only [List.length_nil, List.nil_append] at this
    simp only [Slice.toList, applyPatch, Option.some_bind]
    exact ⟨_, this, rfl⟩

/-! ## The claims -/

/-- C1: for every pod and every name that `createPatch` resolves (the non-empty
name it is given, or the generated one), the operations it returns, applied in
order with the semantics of the JSON Patch `add` to the pod as submitted,
succeed at every step; in the resulting pod every container has its original
environment list (empty when unset) followed by exactly two entries, first the
resource-type variable with the value of the constant `ContainerType`, then
the resource-labels variable. Entries that were there are kept, also under a
colliding name, and the number, the order and the names of the containers
are unchanged. -/
theorem createPatch_applies_in_order (lib : Lib) (rnd cl ns podName : String) (pod : Pod)
    (name : String) (p0 : Slice patchOperation)
    (h : resolveName rnd podName pod = some (name, p0)) :
    ∃ ops pod', createPatch lib rnd cl ns podName pod = { patch := some ops, err := none } ∧
      (∀ k, (applyPatch pod (ops.toList.take k)).isSome = true) ∧
      applyPatch pod ops.toList = some pod' ∧
      pod'.Spec.Containers = pod.Spec.Containers.map (fun c =>
        { Name := c.Name,
          Env := some (c.Env.toList ++
            [ { Name := lib.EnvVarType, Value := lib.ContainerType },
              { Name := lib.EnvVarLabels,
                Value := buildResourceTags lib cl ns name c.Name (deploymentName name) } ]) }) ∧
      pod'.Spec.Containers.length = pod.Spec.Containers.length ∧
      pod'.Spec.Containers.map (fun c => c.Name) = pod.Spec.Containers.map (fun c => c.Name) := by
  obtain ⟨pod', happ, hcs⟩ := applyPatch_resolved lib rnd cl ns podName pod name p0 h
  refine ⟨_, pod', createPatch_of_resolved lib rnd cl ns podName pod name p0 h,
    ?_, ?_, ?_, ?_, ?_⟩
  · intro k
    apply applyPatch_take pod pod'
    rw [foldl_containerStep_toList]
    exact happ
  · rw [foldl_containerStep_toList]
    exact happ
  · rw [hcs]
    rfl
  · rw [hcs, List.length_map]
  · rw [hcs, List.map_map]
    rfl

theorem createPatch_applies_in_order_witness :
    resolveName "abcde" "" (samplePod "" "web-" none)
      = some ("web-abcde",
          some [{ Op := "add", Path := "/metadata/name", Value := .str "web-abcde" }]) ∧
    ∃ ops pod', createPatch sampleLib "abcde" "test" "default" "" (samplePod "" "web-" none)
        = { patch := some ops, err := none } ∧
      (∀ k, (applyPatch (samplePod "" "web-" none) (ops.toList.take k)).isSome = true) ∧
      applyPatch (samplePod "" "web-" none) ops.toList = some pod' ∧
      pod'.Spec.Containers = (samplePod "" "web-" none).Spec.Containers.map (fun c =>
        { Name := c.Name,
          Env := some (c.Env.toList ++
            [ { Name := sampleLib.EnvVarType, Value := sampleLib.ContainerType },
              { Name := sampleLib.EnvVarLabels,
                Value := buildResourceTags sampleLib "test" "default" "web-abcde" c.Name
                  (deploymentName "web-abcde") } ]) }) ∧
      pod'.Spec.Containers.length = (samplePod "" "web-" none).Spec.Containers.length ∧
      pod'.Spec.Containers.map (fun c => c.Name)
        = (samplePod "" "web-" none).Spec.Containers.map (fun c => c.Name) :=
  ⟨by decide, createPatch_applies_in_order sampleLib "abcde" "test" "default" ""
    (samplePod "" "web-" none) "web-abcde"
    (some [{ Op := "add", Path := "/metadata/name", Value := .str "web-abcde" }]) (by decide)⟩

/-- C2: when `createPatch` succeeds, the number of operations is 1 if the name
was generated (the name given was empty) and 0 otherwise, plus 3 for every
container with an unset environment list and 2 for every other container. -/
theorem createPatch_operation_count (lib : Lib) (rnd cl ns podName : String) (pod : Pod)
    (h : (createPatch lib rnd cl ns podName pod).err = none) :
    ∃ ops, (createPatch lib rnd cl ns podName pod).patch = some ops ∧
      ops.toList.length
        = (if podName = "" then 1 else 0)
          + (pod.Spec.Containers.map (fun c => if c.Env = none then 3 else 2)).sum := by
  cases hr : resolveName rnd podName pod with
  | none => simp [createPatch_of_unresolved lib rnd cl ns podName pod hr] at h
  | some np =>
    obtain ⟨name, p0⟩ := np
    rw [createPatch_of_resolved lib rnd cl ns podName pod name p0 hr]
    refine ⟨_, rfl, ?_⟩
    rw [foldl_containerStep_toList, List.length_append]
    have hp0 : p0.toList.length = if podName = "" then 1 else 0 := by
      by_cases hn : podName = ""
      · subst hn
        have hg : pod.GenerateName ≠ "" := fun hg =>
          absurd ((resolveName_eq_none_iff rnd "" pod).2 ⟨rfl, hg⟩) (by simp [hr])
        rw [resolveName_generated rnd pod hg] at hr
        simp only [Option.some.injEq, Prod.mk.injEq] at hr
        simp [← hr.2, Slice.toList]
      · rw [resolveName_given rnd podName pod hn] at hr
        simp only [Option.some.injEq, Prod.mk.injEq] at hr
        simp [← hr.2, Slice.toList, hn]
    rw [hp0]
    congr 1
    have : ∀ (l : List Container) (k : Nat),
        ((l.enumFrom k).flatMap (containerOps lib cl ns name (deploymentName name))).length
          = (l.map (fun c => if c.Env = none then 3 else 2)).sum := by
      intro l
      induction l with
      | nil => intro k; simp
      | cons c cs ih =>
        intro k
        simp only [List.enumFrom_cons, List.flatMap_cons, List.length_append, ih, List.map_cons,
          List.sum_cons]
        congr 1
        by_cases hc : c.Env = none <;> simp [containerOps, hc]
    exact this _ 0

theorem createPatch_operation_count_witness :
    (createPatch sampleLib "abcde" "test" "default" "" (samplePod "" "web-" none)).err = none ∧
    ∃ ops, (createPatch sampleLib "abcde" "test" "default" "" (samplePod "" "web-" none)).patch
        = some ops ∧
      ops.toList.length
        = (if ("" : String) = "" then 1 else 0)
          + ((samplePod "" "web-" none).Spec.Containers.map
              (fun c => if c.Env = none then 3 else 2)).sum :=
  ⟨by decide, createPatch_operation_count sampleLib "abcde" "test" "default" ""
    (samplePod "" "web-" none) (by decide)⟩

/-- C3 as stated fails: the annotation value "tRuE" is "true" in another letter
case, yet with the default policy false the decision is skip, and the
response is the plain allow. -/
theorem configure_annotation_mixed_case_counterexample :
    (samplePod "web-1" "" (some "tRuE")).Annotations annotationConfigure = some "tRuE" ∧
    "tRuE".toList.map Char.toLower = "true".toList ∧
    shouldConfigure (sampleCmd false) (samplePod "web-1" "" (some "tRuE")) = false ∧
    (autoconf (sampleCmd false) sampleLib "abcde"
      (sampleRequest "web-1" (samplePod "web-1" "" (some "tRuE")))).1 = { Allowed := true } := by
  decide

/-- C3, amended: when the configure annotation is present with one of the
values true, True, TRUE (or false, False, FALSE), the decision of `autoconf` is
that boolean for either value of the default policy: for true the response is
the one built from `createPatch`, for false it is the plain allow. -/
theorem configure_annotation_wins (cmd : autoconfCmd) (lib : Lib) (rnd : String)
    (req : AdmissionRequest) (pod : Pod) (v : String) (b : Bool)
    (hobj : req.Object = .ok pod)
    (hann : pod.Annotations annotationConfigure = some v)
    (hval : (b = true ∧ (v = "true" ∨ v = "True" ∨ v = "TRUE"))
      ∨ (b = false ∧ (v = "false" ∨ v = "False" ∨ v = "FALSE"))) :
    shouldConfigure cmd pod = b ∧
    (autoconf cmd lib rnd req).1
      = if b then
          patchResponse (createPatch lib rnd cmd.clusterName (effectiveNamespace req pod)
            (effectiveName req pod) pod)
        else { Allowed := true } := by
  have hdec : shouldConfigure cmd pod = b := by
    rcases hval with ⟨rfl, h | h | h⟩ | ⟨rfl, h | h | h⟩ <;> subst h <;>
      simp [shouldConfigure, hann, ParseBool]
  refine ⟨hdec, ?_⟩
  cases b with
  | true => simpa using autoconf_configure cmd lib rnd req pod hobj hdec
  | false => simpa using autoconf_skip cmd lib rnd req pod hobj hdec

theorem configure_annotation_wins_witness :
    shouldConfigure (sampleCmd true) (samplePod "web-1" "" (some "FALSE")) = false ∧
    (autoconf (sampleCmd true) sampleLib "abcde"
        (sampleRequest "" (samplePod "web-1" "" (some "FALSE")))).1
      = if false then
          patchResponse (createPatch sampleLib "abcde" (sampleCmd true).clusterName
            (effectiveNamespace (sampleRequest "" (samplePod "web-1" "" (some "FALSE")))
              (samplePod "web-1" "" (some "FALSE")))
            (effectiveName (sampleRequest "" (samplePod "web-1" "" (some "FALSE")))
              (samplePod "web-1" "" (some "FALSE")))
            (samplePod "web-1" "" (some "FALSE")))
        else { Allowed := true } :=
  configure_annotation_wins (sampleCmd true) sampleLib "abcde"
    (sampleRequest "" (samplePod "web-1" "" (some "FALSE"))) (samplePod "web-1" "" (some "FALSE"))
    "FALSE" false rfl (by decide) (by decide)

/-- C4: when the configure annotation is absent, or present with a value that
`strconv.ParseBool` rejects, the decision of `autoconf` is the default policy
flag and the annotation causes no error: with default false the response is
the plain allow, with default true it is the response built from `createPatch`. -/
theorem configure_default_applies (cmd : autoconfCmd) (lib : Lib) (rnd : String)
    (req : AdmissionRequest) (pod : Pod)
    (hobj : req.Object = .ok pod)
    (hann : pod.Annotations annotationConfigure = none
      ∨ ∃ v, pod.Annotations annotationConfigure = some v ∧ ParseBool v = none) :
    shouldConfigure cmd pod = cmd.configureDefault ∧
    (autoconf cmd lib rnd req).1
      = if cmd.configureDefault then
          patchResponse (createPatch lib rnd cmd.clusterName (effectiveNamespace req pod)
            (effectiveName req pod) pod)
        else { Allowed := true } := by
  have hparse : ParseBool ((pod.Annotations annotationConfigure).getD "") = none := by
    rcases hann with h | ⟨v, h, hv⟩
    · rw [h]; decide
    · rw [h]; exact hv
  have hdec : shouldConfigure cmd pod = cmd.configureDefault := by
    simp [shouldConfigure, hparse]
  refine ⟨hdec, ?_⟩
  cases hd : cmd.configureDefault with
  | true =>
    rw [hd] at hdec
    simpa using autoconf_configure cmd lib rnd req pod hobj hdec
  | false =>
    rw [hd] at hdec
    simpa using autoconf_skip cmd lib rnd req pod hobj hdec

theorem configure_default_applies_witness :
    shouldConfigure (sampleCmd false) (samplePod "web-1" "" (some "notabool"))
      = (sampleCmd false).configureDefault ∧
    (autoconf (sampleCmd false) sampleLib "abcde"
        (sampleRequest "" (samplePod "web-1" "" (some "notabool")))).1
      = if (sampleCmd false).configureDefault then
          patchResponse (createPatch sampleLib "abcde" (sampleCmd false).clusterName
            (effectiveNamespace (sampleRequest "" (samplePod "web-1" "" (some "notabool")))
              (samplePod "web-1" "" (some "notabool")))
            (effectiveName (sampleRequest "" (samplePod "web-1" "" (some "notabool")))
              (samplePod "web-1" "" (some "notabool")))
            (samplePod "web-1" "" (some "notabool")))
        else { Allowed := true } :=
  configure_default_applies (sampleCmd false) sampleLib "abcde"
    (sampleRequest "" (samplePod "web-1" "" (some "notabool")))
    (samplePod "web-1" "" (some "notabool")) rfl
    (Or.inr ⟨"notabool", by decide, by decide⟩)

/-- C5: `createPatch` returns an error exactly when the pod name it is given and
the generate-name prefix of the pod are both empty, whatever the cluster name,
the namespace and the containers are; with the error it returns the nil patch. -/
theorem createPatch_fails_iff (lib : Lib) (rnd cl ns podName : String) (pod : Pod) :
    ((createPatch lib rnd cl ns podName pod).err ≠ none
        ↔ podName = "" ∧ pod.GenerateName = "") ∧
    ((createPatch lib rnd cl ns podName pod).err ≠ none
        → (createPatch lib rnd cl ns podName pod).patch = none) := by
  cases hr : resolveName rnd podName pod with
  | none =>
    rw [createPatch_of_unresolved lib rnd cl ns podName pod hr]
    exact ⟨⟨fun _ => (resolveName_eq_none_iff rnd podName pod).1 hr, fun _ => by simp⟩,
      fun _ => rfl⟩
  | some np =>
    obtain ⟨name, p0⟩ := np
    rw [createPatch_of_resolved lib rnd cl ns podName pod name p0 hr]
    refine ⟨⟨fun h => absurd rfl h, fun h => ?_⟩, fun h => absurd rfl h⟩
    rw [(resolveName_eq_none_iff rnd podName pod).2 h] at hr
    exact Option.noConfusion hr

/-- C6 as stated fails for two kinds of base. With a line feed in the base
("a\nb") the pattern has no match and no deployment name is derived, so the
derived name is not the base and no container gets a deployment label. With
the empty base the derived name is the empty string, which `buildResourceTags`
leaves out of the labels. -/
theorem deployment_name_base_counterexample :
    allAlnum "x" = true ∧ allAlnum "y" = true ∧
    deploymentName ("a\nb" ++ "-" ++ "x" ++ "-" ++ "y") = "" ∧
    deploymentName ("a\nb" ++ "-" ++ "x" ++ "-" ++ "y") ≠ "a\nb" ∧
    buildLabels "test" "default" ("a\nb" ++ "-" ++ "x" ++ "-" ++ "y") "app"
      (deploymentName ("a\nb" ++ "-" ++ "x" ++ "-" ++ "y")) .K8SKeyDeploymentName = none ∧
    deploymentName ("" ++ "-" ++ "x" ++ "-" ++ "y") = "" ∧
    buildLabels "test" "default" ("" ++ "-" ++ "x" ++ "-" ++ "y") "app"
      (deploymentName ("" ++ "-" ++ "x" ++ "-" ++ "y")) .K8SKeyDeploymentName = none := by
  decide

/-- C6, amended: for every string base without a line feed (hyphens inside it
allowed) and every two non-empty strings s1, s2 of ASCII letters and digits,
the deployment name that `createPatch` derives from the pod name
base-s1-s2 is base; `createPatch` succeeds, and the labels variable that it
adds to every container encodes a label map whose deployment label is base
when base is not empty (for the empty base the map has no deployment label). -/
theorem deployment_name_is_base (lib : Lib) (rnd cl ns : String) (pod : Pod)
    (base s1 s2 : String) (hbase : noLineFeed base = true)
    (_h1 : s1 ≠ "") (_h2 : s2 ≠ "") (ha1 : allAlnum s1 = true) (ha2 : allAlnum s2 = true) :
    deploymentName (base ++ "-" ++ s1 ++ "-" ++ s2) = base ∧
    ∃ ops, createPatch lib rnd cl ns (base ++ "-" ++ s1 ++ "-" ++ s2) pod
        = { patch := some ops, err := none } ∧
      ∀ i c, pod.Spec.Containers[i]? = some c →
        labelsOp lib i (buildLabels cl ns (base ++ "-" ++ s1 ++ "-" ++ s2) c.Name base)
          ∈ ops.toList ∧
        buildLabels cl ns (base ++ "-" ++ s1 ++ "-" ++ s2) c.Name base .K8SKeyDeploymentName
          = if base = "" then none else some base := by
  have hd := deploymentName_segments base s1 s2 hbase ha1 ha2
  refine ⟨hd, ?_⟩
  obtain ⟨ops, hops, hlist⟩ := createPatch_given lib rnd cl ns
    (base ++ "-" ++ s1 ++ "-" ++ s2) pod (segments_ne_empty base s1 s2)
  refine ⟨ops, hops, fun i c hc => ⟨?_, buildLabels_deployment _ _ _ _ _⟩⟩
  rw [hlist, hd]
  exact labels_op_mem_enum lib cl ns (base ++ "-" ++ s1 ++ "-" ++ s2) base
    pod.Spec.Containers i c hc

theorem deployment_name_is_base_witness :
    noLineFeed "my-svc" = true ∧ allAlnum "7d9f8c6b79" = true ∧ allAlnum "abcde" = true ∧
    (deploymentName ("my-svc" ++ "-" ++ "7d9f8c6b79" ++ "-" ++ "abcde") = "my-svc" ∧
    ∃ ops, createPatch sampleLib "r" "test" "default"
        ("my-svc" ++ "-" ++ "7d9f8c6b79" ++ "-" ++ "abcde") (samplePod "" "" none)
        = { patch := some ops, err := none } ∧
      ∀ i c, (samplePod "" "" none).Spec.Containers[i]? = some c →
        labelsOp sampleLib i
            (buildLabels "test" "default" ("my-svc" ++ "-" ++ "7d9f8c6b79" ++ "-" ++ "abcde")
              c.Name "my-svc") ∈ ops.toList ∧
        buildLabels "test" "default" ("my-svc" ++ "-" ++ "7d9f8c6b79" ++ "-" ++ "abcde")
            c.Name "my-svc" .K8SKeyDeploymentName
          = if ("my-svc" : String) = "" then none else some "my-svc") :=
  ⟨by decide, by decide, by decide,
    deployment_name_is_base sampleLib "r" "test" "default" (samplePod "" "" none)
      "my-svc" "7d9f8c6b79" "abcde" (by decide) (by decide) (by decide) (by decide) (by decide)⟩

/-- C7 as stated fails at the empty pod name, which has fewer than two hyphens
and is the name `createPatch` is given for a pod that only has a generate-name
prefix. Without a prefix `createPatch` fails with its error; with the prefix
"web-7d9-" it generates the name "web-7d9-abcde", derives the deployment name
"web" from it, and the labels of the first container carry the deployment key. -/
theorem empty_pod_name_counterexample :
    ("" : String).toList.count '-' < 2 ∧
    (¬ ∃ p a b : String, "" = p ++ "-" ++ a ++ "-" ++ b ∧ allAlnum a = true
      ∧ allAlnum b = true) ∧
    (createPatch sampleLib "abcde" "test" "default" "" (samplePod "" "" none)).err
      = some "unable to configure pod without name or generate name" ∧
    (createPatch sampleLib "abcde" "test" "default" "" (samplePod "" "" none)).patch = none ∧
    deploymentName (GenerateName "abcde" "web-7d9-") = "web" ∧
    (createPatch sampleLib "abcde" "test" "default" "" (samplePod "" "web-7d9-" none)).patch.map
        (fun s => s.toList.get? 3)
      = some (some (labelsOp sampleLib 0
          (buildLabels "test" "default" "web-7d9-abcde" "app" "web"))) ∧
    buildLabels "test" "default" "web-7d9-abcde" "app" "web" .K8SKeyDeploymentName
      = some "web" :=
  ⟨by decide, no_segments_of_count "" (by decide), by decide, by decide, by decide, by decide,
    by decide⟩

/-- C7, amended: for every non-empty pod name given to `createPatch` that cannot
be written p-a-b with a and b made of ASCII letters and digits (fewer than two
hyphens, or another character in one of the last two segments), `createPatch`
derives no deployment name and returns no error; the labels variable of every
container encodes a label map with exactly the keys cluster, namespace, pod and
container, the deployment key being absent from the map. -/
theorem no_deployment_name_without_segments (lib : Lib) (rnd cl ns podName : String) (pod : Pod)
    (hname : podName ≠ "")
    (hshape : ¬ ∃ p a b : String, podName = p ++ "-" ++ a ++ "-" ++ b ∧ allAlnum a = true
      ∧ allAlnum b = true) :
    deploymentName podName = "" ∧
    (createPatch lib rnd cl ns podName pod).err = none ∧
    (∃ ops, (createPatch lib rnd cl ns podName pod).patch = some ops ∧
      ops.toList = pod.Spec.Containers.enum.flatMap (containerOps lib cl ns podName "") ∧
      ∀ i c, pod.Spec.Containers[i]? = some c →
        labelsOp lib i (buildLabels cl ns podName c.Name (deploymentName podName))
          ∈ ops.toList) ∧
    ∀ (container : String) (k : LabelKey),
      (buildLabels cl ns podName container (deploymentName podName) k).isSome = true
        ↔ k ≠ .K8SKeyDeploymentName := by
  have hd := deploymentName_no_segments podName hshape
  obtain ⟨ops, hops, hlist⟩ := createPatch_given lib rnd cl ns podName pod hname
  rw [hops]
  refine ⟨hd, rfl, ⟨ops, rfl, ?_, fun i c hc => ?_⟩, fun container k => ?_⟩
  · rw [hlist, hd]
  · rw [hlist]
    exact labels_op_mem_enum lib cl ns podName (deploymentName podName)
      pod.Spec.Containers i c hc
  · rw [hd]
    exact buildLabels_isSome cl ns podName container k

theorem no_deployment_name_without_segments_witness :
    "standalone-pod" ≠ "" ∧
    "standalone-pod".toList.count '-' < 2 ∧
    (deploymentName "standalone-pod" = "" ∧
    (createPatch sampleLib "r" "test" "default" "standalone-pod"
      (samplePod "" "" none)).err = none ∧
    (∃ ops, (createPatch sampleLib "r" "test" "default" "standalone-pod"
        (samplePod "" "" none)).patch = some ops ∧
      ops.toList = (samplePod "" "" none).Spec.Containers.enum.flatMap
        (containerOps sampleLib "test" "default" "standalone-pod" "") ∧
      ∀ i c, (samplePod "" "" none).Spec.Containers[i]? = some c →
        labelsOp sampleLib i (buildLabels "test" "default" "standalone-pod" c.Name
          (deploymentName "standalone-pod")) ∈ ops.toList) ∧
    ∀ (container : String) (k : LabelKey),
      (buildLabels "test" "default" "standalone-pod" container
          (deploymentName "standalone-pod") k).isSome = true
        ↔ k ≠ .K8SKeyDeploymentName) :=
  ⟨by decide, by decide,
    no_deployment_name_without_segments sampleLib "r" "test" "default" "standalone-pod"
      (samplePod "" "" none) (by decide)
      (no_segments_of_count "standalone-pod" (by decide))⟩

/-- C8: when the pod name given to `createPatch` is empty and the generate-name
prefix is not, the first operation returned is an `add` at /metadata/name whose
value is the generated name; the generated name is the prefix followed by the
random suffix, whose length does not depend on the prefix; the operations that
follow are those of the containers, built with the generated name as the pod
label and as the input of the deployment-name derivation. When the pod name
given is not empty, no operation returned has the path /metadata/name. -/
theorem generated_name_is_patched (lib : Lib) (rnd cl ns podName : String) (pod : Pod) :
    (podName = "" → pod.GenerateName ≠ "" →
      GenerateName rnd pod.GenerateName = pod.GenerateName ++ rnd ∧
      (GenerateName rnd pod.GenerateName).length = pod.GenerateName.length + rnd.length ∧
      ∃ ops, createPatch lib rnd cl ns podName pod = { patch := some ops, err := none } ∧
        ops.toList
          = { Op := "add", Path := "/metadata/name",
              Value := .str (GenerateName rnd pod.GenerateName) } ::
            pod.Spec.Containers.enum.flatMap
              (containerOps lib cl ns (GenerateName rnd pod.GenerateName)
                (deploymentName (GenerateName rnd pod.GenerateName))) ∧
        ∀ i c, pod.Spec.Containers[i]? = some c →
          labelsOp lib i (buildLabels cl ns (GenerateName rnd pod.GenerateName) c.Name
            (deploymentName (GenerateName rnd pod.GenerateName))) ∈ ops.toList ∧
          buildLabels cl ns (GenerateName rnd pod.GenerateName) c.Name
              (deploymentName (GenerateName rnd pod.GenerateName)) .K8SKeyPodName
            = some (GenerateName rnd pod.GenerateName)) ∧
    (podName ≠ "" →
      ∃ ops, createPatch lib rnd cl ns podName pod = { patch := some ops, err := none } ∧
        ∀ op ∈ ops.toList, op.Path ≠ "/metadata/name") := by
  constructor
  · intro hn hg
    subst hn
    obtain ⟨ops, hops, hlist⟩ := createPatch_generated lib rnd cl ns pod hg
    refine ⟨rfl, ?_, ops, hops, hlist, fun i c hc => ⟨?_, buildLabels_pod _ _ _ _ _⟩⟩
    · exact String.length_append _ _
    · rw [hlist]
      apply List.mem_cons_of_mem
      exact labels_op_mem_enum lib cl ns (GenerateName rnd pod.GenerateName)
        (deploymentName (GenerateName rnd pod.GenerateName)) pod.Spec.Containers i c hc
  · intro hn
    obtain ⟨ops, hops, hlist⟩ := createPatch_given lib rnd cl ns podName pod hn
    refine ⟨ops, hops, fun op hop => ?_⟩
    rw [hlist, List.mem_flatMap] at hop
    obtain ⟨ic, -, hic⟩ := hop
    exact containerOps_path_ne lib cl ns podName (deploymentName podName) ic op hic

theorem generated_name_is_patched_witness :
    (GenerateName "x7k2p" "web-" = "web-" ++ "x7k2p" ∧
      (createPatch sampleLib "x7k2p" "test" "default" "" (samplePod "" "web-" none)).patch.map
          (fun ops => ops.toList.head?)
        = some (some { Op := "add", Path := "/metadata/name", Value := .str "web-x7k2p" })) ∧
    ∃ ops, createPatch sampleLib "x7k2p" "test" "default" "web-1" (samplePod "web-1" "web-" none)
        = { patch := some ops, err := none } ∧
      ∀ op ∈ ops.toList, op.Path ≠ "/metadata/name" :=
  ⟨by
      obtain ⟨h1, -, ops, hops, hlist, -⟩ :=
        (generated_name_is_patched sampleLib "x7k2p" "test" "default" ""
          (samplePod "" "web-" none)).1 rfl (by decide)
      refine ⟨h1, ?_⟩
      rw [hops]
      simp only [Option.map_some', hlist, List.head?_cons]
      rfl,
    (generated_name_is_patched sampleLib "x7k2p" "test" "default" "web-1"
      (samplePod "web-1" "web-" none)).2 (by decide)⟩

/-- C9: when the decision is skip, `autoconf` answers with an allowing response
without patch, patch type or result message, whatever the name, the
generate-name prefix and the containers of the pod are. -/
theorem autoconf_skip_response (cmd : autoconfCmd) (lib : Lib) (rnd : String)
    (req : AdmissionRequest) (pod : Pod)
    (hobj : req.Object = .ok pod) (hskip : shouldConfigure cmd pod = false) :
    (autoconf cmd lib rnd req).1.Allowed = true ∧
    (autoconf cmd lib rnd req).1.Patch = none ∧
    (autoconf cmd lib rnd req).1.PatchType = none ∧
    (autoconf cmd lib rnd req).1.Result = none := by
  rw [autoconf_skip cmd lib rnd req pod hobj hskip]
  exact ⟨rfl, rfl, rfl, rfl⟩

theorem autoconf_skip_response_witness :
    (autoconf (sampleCmd true) sampleLib "abcde"
      (sampleRequest "" (samplePod "" "" (some "false")))).1.Allowed = true ∧
    (autoconf (sampleCmd true) sampleLib "abcde"
      (sampleRequest "" (samplePod "" "" (some "false")))).1.Patch = none ∧
    (autoconf (sampleCmd true) sampleLib "abcde"
      (sampleRequest "" (samplePod "" "" (some "false")))).1.PatchType = none ∧
    (autoconf (sampleCmd true) sampleLib "abcde"
      (sampleRequest "" (samplePod "" "" (some "false")))).1.Result = none :=
  autoconf_skip_response (sampleCmd true) sampleLib "abcde"
    (sampleRequest "" (samplePod "" "" (some "false"))) (samplePod "" "" (some "false"))
    rfl (by decide)

/-- C10: when the decision is configure and the name of the pod, the name of
the request and the generate-name prefix of the pod are all empty, `autoconf`
answers with a denial (allowed is false) that carries a non-empty message and
neither a patch nor a patch type. -/
theorem autoconf_no_name_denied (cmd : autoconfCmd) (lib : Lib) (rnd : String)
    (req : AdmissionRequest) (pod : Pod)
    (hobj : req.Object = .ok pod) (hconf : shouldConfigure cmd pod = true)
    (hpod : pod.Name = "") (hreq : req.Name = "") (hgen : pod.GenerateName = "") :
    (autoconf cmd lib rnd req).1.Allowed = false ∧
    (∃ m, (autoconf cmd lib rnd req).1.Result = some { Message := m } ∧ m ≠ "") ∧
    (autoconf cmd lib rnd req).1.Patch = none ∧
    (autoconf cmd lib rnd req).1.PatchType = none := by
  have hname : effectiveName req pod = "" := by simp [effectiveName, hpod, hreq]
  rw [autoconf_configure cmd lib rnd req pod hobj hconf, hname,
    createPatch_of_unresolved lib rnd cmd.clusterName _ "" pod
      ((resolveName_eq_none_iff rnd "" pod).2 ⟨rfl, hgen⟩)]
  exact ⟨rfl, ⟨_, rfl, by decide⟩, rfl, rfl⟩

theorem autoconf_no_name_denied_witness :
    (autoconf (sampleCmd true) sampleLib "abcde"
      (sampleRequest "" (samplePod "" "" none))).1.Allowed = false ∧
    (∃ m, (autoconf (sampleCmd true) sampleLib "abcde"
      (sampleRequest "" (samplePod "" "" none))).1.Result = some { Message := m } ∧ m ≠ "") ∧
    (autoconf (sampleCmd true) sampleLib "abcde"
      (sampleRequest "" (samplePod "" "" none))).1.Patch = none ∧
    (autoconf (sampleCmd true) sampleLib "abcde"
      (sampleRequest "" (samplePod "" "" none))).1.PatchType = none :=
  autoconf_no_name_denied (sampleCmd true) sampleLib "abcde"
    (sampleRequest "" (samplePod "" "" none)) (samplePod "" "" none)
    rfl (by decide) rfl rfl rfl

/-! ## More on `buildResourceTags` and `autoconf` -/

theorem buildLabels_namespace (cl ns nm c d : String) :
    buildLabels cl ns nm c d .K8SKeyNamespaceName = some ns := by
  by_cases h : d = "" <;> simp [buildLabels, Labels.set, h]

theorem buildLabels_cluster (cl ns nm c d : String) :
    buildLabels cl ns nm c d .K8SKeyClusterName = some cl := by
  by_cases h : d = "" <;> simp [buildLabels, Labels.set, h]

theorem buildLabels_container (cl ns nm c d : String) :
    buildLabels cl ns nm c d .ContainerKeyName = some c := by
  by_cases h : d = "" <;> simp [buildLabels, Labels.set, h]

theorem patchResponse_ne_allow (r : PatchResult) : patchResponse r ≠ { Allowed := true } := by
  unfold patchResponse
  cases r.err with
  | none =>
    intro h
    have := congrArg AdmissionResponse.PatchType h
    simp at this
  | some e =>
    intro h
    have := congrArg AdmissionResponse.Result h
    simp at this

theorem autoconf_allow_iff (cmd : autoconfCmd) (lib : Lib) (rnd : String)
    (req : AdmissionRequest) (pod : Pod) (hobj : req.Object = .ok pod) :
    (autoconf cmd lib rnd req).1 = { Allowed := true } ↔ shouldConfigure cmd pod = false := by
  cases h : shouldConfigure cmd pod with
  | false => simp [autoconf_skip cmd lib rnd req pod hobj h]
  | true =>
    rw [autoconf_configure cmd lib rnd req pod hobj h]
    simp [patchResponse_ne_allow]

theorem segments_unique (p a b p' a' b' : List Char)
    (ha : '-' ∉ a) (hb : '-' ∉ b) (ha' : '-' ∉ a') (hb' : '-' ∉ b')
    (h : p ++ '-' :: (a ++ '-' :: b) = p' ++ '-' :: (a' ++ '-' :: b')) :
    p = p' ∧ a = a' ∧ b = b' := by
  have hrev : b.reverse ++ '-' :: (a.reverse ++ '-' :: p.reverse)
      = b'.reverse ++ '-' :: (a'.reverse ++ '-' :: p'.reverse) := by
    have := congrArg List.reverse h
    simpa [List.reverse_append, List.append_assoc] using this
  obtain ⟨h1, h2⟩ := split_unique '-' _ _ _ _ (by simpa using hb) (by simpa using hb') hrev
  obtain ⟨h3, h4⟩ := split_unique '-' _ _ _ _ (by simpa using ha) (by simpa using ha') h2
  exact ⟨List.reverse_injective h4, List.reverse_injective h3, List.reverse_injective h1⟩

theorem allAlnum_no_hyphen (s : String) (h : allAlnum s = true) : '-' ∉ s.toList :=
  hyphen_not_mem s.toList (by simpa [allAlnum] using h)

theorem string_segments_unique (p a b p' a' b' : String)
    (ha : allAlnum a = true) (hb : allAlnum b = true)
    (ha' : allAlnum a' = true) (hb' : allAlnum b' = true)
    (h : p ++ "-" ++ a ++ "-" ++ b = p' ++ "-" ++ a' ++ "-" ++ b') :
    p = p' ∧ a = a' ∧ b = b' := by
  have hl := congrArg String.toList h
  rw [toList_segments, toList_segments] at hl
  obtain ⟨h1, h2, h3⟩ := segments_unique _ _ _ _ _ _ (allAlnum_no_hyphen a ha)
    (allAlnum_no_hyphen b hb) (allAlnum_no_hyphen a' ha') (allAlnum_no_hyphen b' hb') hl
  exact ⟨String.ext h1, String.ext h2, String.ext h3⟩

theorem deploymentName_ne_empty_iff (name : String) :
    deploymentName name ≠ "" ↔
      ∃ p a b : String, name = p ++ "-" ++ a ++ "-" ++ b ∧ allAlnum a = true
        ∧ allAlnum b = true ∧ p ≠ "" ∧ noLineFeed p = true := by
  constructor
  · intro hne
    cases hm : dRegexMatch name.toList with
    | none => exact absurd (deploymentName_of_no_match name hm) hne
    | some x =>
      obtain ⟨p, a, b⟩ := x
      have hd := deploymentName_of_match name p a b hm
      rw [dRegexMatch_eq_some] at hm
      obtain ⟨hs, hp, ha, hb⟩ := hm
      refine ⟨String.mk p, String.mk a, String.mk b, ?_, ?_, ?_, ?_, ?_⟩
      · apply String.ext
        show name.toList = (String.mk p ++ "-" ++ String.mk a ++ "-" ++ String.mk b).toList
        rw [toList_segments]
        exact hs
      · simpa [allAlnum, String.toList] using ha
      · simpa [allAlnum, String.toList] using hb
      · rw [← hd]
        exact hne
      · simpa [noLineFeed, String.toList] using hp
  · rintro ⟨p, a, b, rfl, ha, hb, hp, hnl⟩
    rw [deploymentName_segments p a b hnl ha hb]
    exact hp

theorem shouldConfigure_eq (cmd : autoconfCmd) (pod : Pod) :
    shouldConfigure cmd pod
      = match ParseBool ((pod.Annotations annotationConfigure).getD "") with
        | some b => b
        | none => cmd.configureDefault := rfl

theorem ParseBool_true (v : String)
    (h : v ∈ ["1", "t", "T", "TRUE", "true", "True"]) : ParseBool v = some true := by
  simp only [List.mem_cons, List.mem_singleton, List.not_mem_nil, or_false] at h
  simp [ParseBool, h]

theorem ParseBool_false (v : String)
    (h : v ∈ ["0", "f", "F", "FALSE", "false", "False"]) : ParseBool v = some false := by
  simp only [List.mem_cons, List.mem_singleton, List.not_mem_nil, or_false] at h
  rcases h with h | h | h | h | h | h <;> subst h <;> decide

theorem ParseBool_none (v : String)
    (ht : v ∉ ["1", "t", "T", "TRUE", "true", "True"])
    (hf : v ∉ ["0", "f", "F", "FALSE", "false", "False"]) : ParseBool v = none := by
  simp only [List.mem_cons, List.mem_singleton, List.not_mem_nil, or_false] at ht hf
  simp [ParseBool, ht, hf]

/-! ## The claims, continued -/

/-- C11: with the label encoder of the spec (labels in the key order cluster,
namespace, pod, container, deployment, rendered by `entry` and joined by
`sep`), the string returned by `buildResourceTags` lists the cluster, the
namespace, the pod and the container label in this order, followed by the
deployment label exactly when the deployment name is not empty; and for every
encoder two calls with equal arguments return the same string. -/
theorem buildResourceTags_fixed_order (lib : Lib) (entry : LabelKey → String → String)
    (sep cluster ns pod container dName : String) :
    buildResourceTags { lib with EncodeLabels := EncodeLabels entry sep }
        cluster ns pod container dName
      = String.intercalate sep
          ([ entry .K8SKeyClusterName cluster, entry .K8SKeyNamespaceName ns,
             entry .K8SKeyPodName pod, entry .ContainerKeyName container ]
            ++ (if dName = "" then [] else [entry .K8SKeyDeploymentName dName])) ∧
    ∀ cluster' ns' pod' container' dName' : String,
      cluster = cluster' → ns = ns' → pod = pod' → container = container' →
      dName = dName' →
      buildResourceTags lib cluster ns pod container dName
        = buildResourceTags lib cluster' ns' pod' container' dName' := by
  constructor
  · by_cases h : dName = ""
    · simp [buildResourceTags, EncodeLabels, labelOrder, buildLabels, h]
    · simp [buildResourceTags, EncodeLabels, labelOrder, buildLabels, Labels.set, h]
  · rintro _ _ _ _ _ rfl rfl rfl rfl rfl
    rfl

theorem buildResourceTags_fixed_order_witness :
    buildResourceTags { sampleLib with EncodeLabels := EncodeLabels (fun _ v => v) "," }
        "test" "default" "web-1" "app" "web" = "test,default,web-1,app,web" ∧
    buildResourceTags { sampleLib with EncodeLabels := EncodeLabels (fun _ v => v) "," }
        "test" "default" "web-1" "app" "" = "test,default,web-1,app" :=
  ⟨(buildResourceTags_fixed_order sampleLib (fun _ v => v) "," "test" "default" "web-1" "app"
      "web").1.trans (by decide),
    (buildResourceTags_fixed_order sampleLib (fun _ v => v) "," "test" "default" "web-1" "app"
      "").1.trans (by decide)⟩

/-- C12 as stated fails in its remark on the labels: for a pod without name
but with the generate-name prefix "web-", and a request without name, the name
that `autoconf` passes to `createPatch` is the empty name of the request, while
the pod label of the first container is the generated name "web-abcde". -/
theorem passed_name_not_in_labels_counterexample :
    effectiveName (sampleRequest "" (samplePod "" "web-" none)) (samplePod "" "web-" none) = "" ∧
    (autoconf (sampleCmd true) sampleLib "abcde"
        (sampleRequest "" (samplePod "" "web-" none))).1.Patch.map (fun s => s.toList.get? 3)
      = some (some (labelsOp sampleLib 0
          (buildLabels "test" "default" "web-abcde" "app" ""))) ∧
    buildLabels "test" "default" "web-abcde" "app" "" .K8SKeyPodName = some "web-abcde" := by
  decide

/-- C12, amended: when `autoconf` configures a pod, the namespace and the name
that it passes to `createPatch` are the namespace and the name of the pod where
those are not empty and those of the request otherwise, each chosen
independently of the other; in the patch the labels variable of every
container carries that namespace as its namespace label, and as its pod label
that name when it is not empty and the generated name when it is empty. -/
theorem autoconf_passes_effective_names (cmd : autoconfCmd) (lib : Lib) (rnd : String)
    (req : AdmissionRequest) (pod : Pod)
    (hobj : req.Object = .ok pod) (hconf : shouldConfigure cmd pod = true) :
    (autoconf cmd lib rnd req).1
      = patchResponse (createPatch lib rnd cmd.clusterName
          (if pod.Namespace ≠ "" then pod.Namespace else req.Namespace)
          (if pod.Name ≠ "" then pod.Name else req.Name) pod) ∧
    ∀ ns name ops,
      ns = (if pod.Namespace ≠ "" then pod.Namespace else req.Namespace) →
      name = (if pod.Name ≠ "" then pod.Name else req.Name) →
      (autoconf cmd lib rnd req).1.Patch = some ops →
      ∀ i c, pod.Spec.Containers[i]? = some c →
        ∃ labels, labelsOp lib i labels ∈ ops.toList ∧
          labels .K8SKeyNamespaceName = some ns ∧
          labels .K8SKeyPodName
            = some (if name = "" then GenerateName rnd pod.GenerateName else name) := by
  have hresp := autoconf_configure cmd lib rnd req pod hobj hconf
  refine ⟨hresp, ?_⟩
  rintro ns name ops rfl rfl hpatch i c hc
  rw [hresp] at hpatch
  change (patchResponse (createPatch lib rnd cmd.clusterName (effectiveNamespace req pod)
    (effectiveName req pod) pod)).Patch = some ops at hpatch
  change ∃ labels, labelsOp lib i labels ∈ ops.toList ∧
    labels .K8SKeyNamespaceName = some (effectiveNamespace req pod) ∧
    labels .K8SKeyPodName = some (if effectiveName req pod = "" then
      GenerateName rnd pod.GenerateName else effectiveName req pod)
  generalize effectiveNamespace req pod = ns at hpatch ⊢
  generalize effectiveName req pod = name at hpatch ⊢
  cases hr : resolveName rnd name pod with
  | none =>
    rw [createPatch_of_unresolved lib rnd cmd.clusterName ns name pod hr] at hpatch
    simp [patchResponse] at hpatch
  | some np =>
    obtain ⟨nm, p0⟩ := np
    rw [createPatch_of_resolved lib rnd cmd.clusterName ns name pod nm p0 hr] at hpatch
    simp only [patchResponse, Option.some.injEq] at hpatch
    subst hpatch
    have hnm : nm = if name = "" then GenerateName rnd pod.GenerateName else name := by
      by_cases hn : name = ""
      · subst hn
        have hg : pod.GenerateName ≠ "" := fun hg =>
          absurd ((resolveName_eq_none_iff rnd "" pod).2 ⟨rfl, hg⟩) (by simp [hr])
        rw [resolveName_generated rnd pod hg] at hr
        simp only [Option.some.injEq, Prod.mk.injEq] at hr
        simp [← hr.1]
      · rw [resolveName_given rnd name pod hn] at hr
        simp only [Option.some.injEq, Prod.mk.injEq] at hr
        simp [← hr.1, hn]
    refine ⟨buildLabels cmd.clusterName ns nm c.Name (deploymentName nm), ?_,
      buildLabels_namespace _ _ _ _ _, ?_⟩
    · rw [foldl_containerStep_toList]
      exact List.mem_append_right _
        (labels_op_mem_enum lib cmd.clusterName ns nm (deploymentName nm)
          pod.Spec.Containers i c hc)
    · rw [buildLabels_pod, hnm]

theorem autoconf_passes_effective_names_witness :
    (autoconf (sampleCmd true) sampleLib "abcde"
        (sampleRequest "req-name" (samplePod "" "" none))).1
      = patchResponse (createPatch sampleLib "abcde" (sampleCmd true).clusterName
          (if (samplePod "" "" none).Namespace ≠ "" then (samplePod "" "" none).Namespace
            else (sampleRequest "req-name" (samplePod "" "" none)).Namespace)
          (if (samplePod "" "" none).Name ≠ "" then (samplePod "" "" none).Name
            else (sampleRequest "req-name" (samplePod "" "" none)).Name)
          (samplePod "" "" none)) ∧
    (if (samplePod "" "" none).Namespace ≠ "" then (samplePod "" "" none).Namespace
      else (sampleRequest "req-name" (samplePod "" "" none)).Namespace) = "default" ∧
    (if (samplePod "" "" none).Name ≠ "" then (samplePod "" "" none).Name
      else (sampleRequest "req-name" (samplePod "" "" none)).Name) = "req-name" :=
  ⟨(autoconf_passes_effective_names (sampleCmd true) sampleLib "abcde"
      (sampleRequest "req-name" (samplePod "" "" none)) (samplePod "" "" none)
      rfl (by decide)).1, by decide, by decide⟩

/-- C13, the code at a pod that it configures: the patch of the response holds
the three operations on the environment of the container and nothing else; no
operation writes the annotation opencensus.io/configured/version, and
`annotationConfigured` and `version` occur in no operation. -/
theorem configured_annotation_not_set :
    (autoconf (sampleCmd true) sampleLib "abcde"
        (sampleRequest "" (singleContainerPod "web-1"))).1
      = { Allowed := true, PatchType := some .PatchTypeJSONPatch,
          Patch := some (some
            [ { Op := "add", Path := "/spec/containers/0/env", Value := .envList [] },
              { Op := "add", Path := "/spec/containers/0/env/-",
                Value := .envVar { Name := "OC_RESOURCE_TYPE", Value := "container" } },
              { Op := "add", Path := "/spec/containers/0/env/-",
                Value := .envVar
                  { Name := "OC_RESOURCE_LABELS",
                    Value := "cluster=test,namespace=default,pod=web-1,container=app" } } ]) } := by
  decide

/-- C14: the decision of `autoconf` is a function of the value that it reads
for the configure annotation and of the default policy flag: two requests
that agree on both get the same decision, and so `autoconf` answers the plain
allow of a skipped pod to both or to neither, whatever the names, namespaces,
containers, other annotations and cluster names are. -/
theorem decision_depends_on_annotation_and_default (cmd cmd' : autoconfCmd) (lib lib' : Lib)
    (rnd rnd' : String) (req req' : AdmissionRequest) (pod pod' : Pod)
    (hobj : req.Object = .ok pod) (hobj' : req'.Object = .ok pod')
    (hann : (pod.Annotations annotationConfigure).getD ""
      = (pod'.Annotations annotationConfigure).getD "")
    (hdef : cmd.configureDefault = cmd'.configureDefault) :
    shouldConfigure cmd pod = shouldConfigure cmd' pod' ∧
    ((autoconf cmd lib rnd req).1 = { Allowed := true }
      ↔ (autoconf cmd' lib' rnd' req').1 = { Allowed := true }) := by
  have h : shouldConfigure cmd pod = shouldConfigure cmd' pod' := by
    simp [shouldConfigure, hann, hdef]
  refine ⟨h, ?_⟩
  rw [autoconf_allow_iff cmd lib rnd req pod hobj,
    autoconf_allow_iff cmd' lib' rnd' req' pod' hobj', h]

theorem decision_depends_on_annotation_and_default_witness :
    shouldConfigure (sampleCmd true) (samplePod "web-1" "" (some "false"))
      = shouldConfigure { sampleCmd true with clusterName := "other" }
          { singleContainerPod "api-7" with
            Annotations := fun k => if k = annotationConfigure then some "false"
              else some "x" } ∧
    ((autoconf (sampleCmd true) sampleLib "abcde"
        (sampleRequest "" (samplePod "web-1" "" (some "false")))).1 = { Allowed := true }
      ↔ (autoconf { sampleCmd true with clusterName := "other" } sampleLib "zzzzz"
        (sampleRequest "r" { singleContainerPod "api-7" with
            Annotations := fun k => if k = annotationConfigure then some "false"
              else some "x" })).1 = { Allowed := true }) :=
  decision_depends_on_annotation_and_default (sampleCmd true)
    { sampleCmd true with clusterName := "other" } sampleLib sampleLib "abcde" "zzzzz"
    (sampleRequest "" (samplePod "web-1" "" (some "false")))
    (sampleRequest "r" { singleContainerPod "api-7" with
      Annotations := fun k => if k = annotationConfigure then some "false" else some "x" })
    (samplePod "web-1" "" (some "false"))
    { singleContainerPod "api-7" with
      Annotations := fun k => if k = annotationConfigure then some "false" else some "x" }
    rfl rfl (by decide) rfl

/-- C15: `createPatch` derives a deployment name (a non-empty `dName`) from a
pod name exactly when the name can be written p-a-b with a and b (possibly
empty) strings of ASCII letters and digits and p non-empty and without a line
feed; such a decomposition is unique, and for every decomposition whose p has
no line feed the derived name is p, everything before the second-to-last
hyphen ("a-b-c-d" gives "a-b", "svc--" gives "svc", "-x-y" gives none). -/
theorem deployment_name_exactly_when (name : String) :
    (deploymentName name ≠ "" ↔
      ∃ p a b : String, name = p ++ "-" ++ a ++ "-" ++ b ∧ allAlnum a = true
        ∧ allAlnum b = true ∧ p ≠ "" ∧ noLineFeed p = true) ∧
    (∀ p a b p' a' b' : String,
      name = p ++ "-" ++ a ++ "-" ++ b → allAlnum a = true → allAlnum b = true →
      name = p' ++ "-" ++ a' ++ "-" ++ b' → allAlnum a' = true → allAlnum b' = true →
      p = p' ∧ a = a' ∧ b = b') ∧
    (∀ p a b : String,
      name = p ++ "-" ++ a ++ "-" ++ b → allAlnum a = true → allAlnum b = true →
      noLineFeed p = true → deploymentName name = p) ∧
    deploymentName "a-b-c-d" = "a-b" ∧ deploymentName "svc--" = "svc" ∧
    deploymentName "-x-y" = "" := by
  refine ⟨deploymentName_ne_empty_iff name, ?_, ?_, by decide, by decide, by decide⟩
  · intro p a b p' a' b' h ha hb h' ha' hb'
    exact string_segments_unique p a b p' a' b' ha hb ha' hb' (h.symm.trans h')
  · rintro p a b rfl ha hb hp
    exact deploymentName_segments p a b hp ha hb

theorem deployment_name_exactly_when_witness :
    deploymentName "a-b-c-d" ≠ "" ∧
    (∃ p a b : String, "a-b-c-d" = p ++ "-" ++ a ++ "-" ++ b ∧ allAlnum a = true
      ∧ allAlnum b = true ∧ p ≠ "" ∧ noLineFeed p = true) ∧
    deploymentName "a-b-c-d" = "a-b" :=
  ⟨by decide,
    (deployment_name_exactly_when "a-b-c-d").1.1 (by decide),
    (deployment_name_exactly_when "a-b-c-d").2.2.1 "a-b" "c" "d" (by decide) (by decide)
      (by decide) (by decide)⟩

/-- C16: the value that `autoconf` reads for the configure annotation (the
empty string when the annotation is absent) overrides the default policy
exactly when it is one of 1, t, T, TRUE, true, True, with decision configure,
or one of 0, f, F, FALSE, false, False, with decision skip; for every other
value the decision is the default policy. -/
theorem annotation_overrides_exactly (cmd : autoconfCmd) (pod : Pod) :
    ((pod.Annotations annotationConfigure).getD "" ∈ ["1", "t", "T", "TRUE", "true", "True"] →
      shouldConfigure cmd pod = true) ∧
    ((pod.Annotations annotationConfigure).getD ""
        ∈ ["0", "f", "F", "FALSE", "false", "False"] →
      shouldConfigure cmd pod = false) ∧
    ((pod.Annotations annotationConfigure).getD "" ∉ ["1", "t", "T", "TRUE", "true", "True"] →
      (pod.Annotations annotationConfigure).getD ""
        ∉ ["0", "f", "F", "FALSE", "false", "False"] →
      shouldConfigure cmd pod = cmd.configureDefault) := by
  refine ⟨fun h => ?_, fun h => ?_, fun ht hf => ?_⟩
  · rw [shouldConfigure_eq, ParseBool_true _ h]
  · rw [shouldConfigure_eq, ParseBool_false _ h]
  · rw [shouldConfigure_eq, ParseBool_none _ ht hf]

theorem annotation_overrides_exactly_witness :
    shouldConfigure (sampleCmd false) (samplePod "web-1" "" (some "T")) = true ∧
    shouldConfigure (sampleCmd true) (samplePod "web-1" "" (some "0")) = false ∧
    shouldConfigure (sampleCmd false) (samplePod "web-1" "" (some "tRuE")) = false ∧
    shouldConfigure (sampleCmd true) (samplePod "web-1" "" (some "yes")) = true ∧
    shouldConfigure (sampleCmd true) (samplePod "web-1" "" (some "")) = true ∧
    shouldConfigure (sampleCmd false) (samplePod "web-1" "" none) = false :=
  ⟨(annotation_overrides_exactly (sampleCmd false) (samplePod "web-1" "" (some "T"))).1
      (by decide),
    (annotation_overrides_exactly (sampleCmd true) (samplePod "web-1" "" (some "0"))).2.1
      (by decide),
    (annotation_overrides_exactly (sampleCmd false) (samplePod "web-1" "" (some "tRuE"))).2.2
      (by decide) (by decide),
    (annotation_overrides_exactly (sampleCmd true) (samplePod "web-1" "" (some "yes"))).2.2
      (by decide) (by decide),
    (annotation_overrides_exactly (sampleCmd true) (samplePod "web-1" "" (some ""))).2.2
      (by decide) (by decide),
    (annotation_overrides_exactly (sampleCmd false) (samplePod "web-1" "" none)).2.2
      (by decide) (by decide)⟩

/-- C17: for a pod without containers, with a non-empty name resolved by
`autoconf` and the decision configure, `createPatch` returns the nil slice of
operations and no error, and `autoconf` still answers allow with a patch: the
patch type is JSONPatch and the patch body is the encoding of the nil slice,
the JSON text null, where an empty non-nil slice would give the array []. -/
theorem no_containers_null_patch (cmd : autoconfCmd) (lib : Lib) (rnd : String)
    (req : AdmissionRequest) (pod : Pod)
    (hobj : req.Object = .ok pod) (hconf : shouldConfigure cmd pod = true)
    (hname : effectiveName req pod ≠ "") (hcont : pod.Spec.Containers = []) :
    createPatch lib rnd cmd.clusterName (effectiveNamespace req pod) (effectiveName req pod) pod
      = { patch := some none, err := none } ∧
    (none : Slice patchOperation).toList = [] ∧
    (autoconf cmd lib rnd req).1
      = { Allowed := true, Patch := some none, PatchType := some .PatchTypeJSONPatch } ∧
    ∀ enc : patchOperation → String,
      patchBody enc (autoconf cmd lib rnd req).1 = some "null" ∧
      jsonMarshalSlice enc (some []) = "[]" := by
  have hcp : createPatch lib rnd cmd.clusterName (effectiveNamespace req pod)
      (effectiveName req pod) pod = { patch := some none, err := none } := by
    rw [createPatch_of_resolved lib rnd cmd.clusterName _ _ pod _ none
      (resolveName_given rnd _ pod hname), hcont]
    rfl
  have hresp : (autoconf cmd lib rnd req).1
      = { Allowed := true, Patch := some none, PatchType := some .PatchTypeJSONPatch } := by
    rw [autoconf_configure cmd lib rnd req pod hobj hconf, hcp]
    rfl
  refine ⟨hcp, rfl, hresp, fun enc => ?_⟩
  rw [hresp]
  exact ⟨rfl, rfl⟩

theorem no_containers_null_patch_witness :
    createPatch sampleLib "abcde" (sampleCmd true).clusterName
        (effectiveNamespace (sampleRequest "" (emptyPod "web-1")) (emptyPod "web-1"))
        (effectiveName (sampleRequest "" (emptyPod "web-1")) (emptyPod "web-1")) (emptyPod "web-1")
      = { patch := some none, err := none } ∧
    (none : Slice patchOperation).toList = [] ∧
    (autoconf (sampleCmd true) sampleLib "abcde" (sampleRequest "" (emptyPod "web-1"))).1
      = { Allowed := true, Patch := some none, PatchType := some .PatchTypeJSONPatch } ∧
    ∀ enc : patchOperation → String,
      patchBody enc (autoconf (sampleCmd true) sampleLib "abcde"
        (sampleRequest "" (emptyPod "web-1"))).1 = some "null" ∧
      jsonMarshalSlice enc (some []) = "[]" :=
  no_containers_null_patch (sampleCmd true) sampleLib "abcde"
    (sampleRequest "" (emptyPod "web-1")) (emptyPod "web-1") rfl (by decide) (by decide) rfl

/-- C18, the code when the decoded review has no request (as after a failed
decoding of the body): whether `Decode` returned an error or not, `handle`
ends in the panic of a nil pointer dereference and writes no review, so the
message of the decoding error is never sent. -/
theorem handle_panics_without_request (cmd : autoconfCmd) (lib : Lib) (rnd : String)
    (readErr : Option String) (review : AdmissionReview) (decodeErr : Option String)
    (h : review.Request = none) :
    (handle cmd lib rnd readErr review decodeErr).panicked = true ∧
    ∀ r, Written.review r ∉ (handle cmd lib rnd readErr review decodeErr).writes := by
  unfold handle
  rw [h]
  cases decodeErr <;> cases readErr <;> simp

theorem handle_panics_without_request_witness :
    (handle (sampleCmd true) sampleLib "abcde" none {}
      (some "couldn't get version/kind; json parse error")).panicked = true ∧
    ∀ r, Written.review r ∉ (handle (sampleCmd true) sampleLib "abcde" none {}
      (some "couldn't get version/kind; json parse error")).writes :=
  handle_panics_without_request (sampleCmd true) sampleLib "abcde" none {}
    (some "couldn't get version/kind; json parse error") rfl

end OpencensusOperator
